import Mathlib

/-!
Verification of the chip8 interpreter (Rust sources under `src/`).

The development shallowly embeds the core of the interpreter:
`Framebuffer::draw_sprite` (src/framebuffer.rs), the instruction decoder
(src/instr.rs), the quirk profile (src/profile.rs), the RAM helpers
(src/ram.rs), and `Chip::cycle` / `Chip::load_rom` (src/chip.rs).

Machine integers are modelled as `Nat` with explicit `% 2^w` at the points
where the Rust code performs wrapping arithmetic.  Fixed-size arrays
(`util::Array`) are modelled as total functions from indices to values;
the source performs no bounds checks of its own (out-of-range accesses
panic in Rust and are documented as unguarded in the design notes), so the
functional model is the natural shallow embedding.  The `panic!` on an
unknown opcode in `Chip::cycle` is modelled by returning `none`.
-/

namespace Chip8

/-- Modelled from the spec: the constant `arch::DISPLAY_WIDTH` lives in
`src/arch.rs`, which is not part of the provided sources; §3 and §6 of the
design fix the conventional framebuffer width 64. -/
def DISPLAY_WIDTH : Nat := 64

/-- Modelled from the spec: the constant `arch::DISPLAY_HEIGHT` lives in
`src/arch.rs`, which is not part of the provided sources; §3 and §6 of the
design fix the conventional framebuffer height 32. -/
def DISPLAY_HEIGHT : Nat := 32

/-- Pointwise update of a one-index total-function array
(`util::Array` write at one cell). -/
def upd (f : Nat → Nat) (i v : Nat) : Nat → Nat :=
  fun j => if j = i then v else f j

/-- Wrapping subtraction on 8-bit values (Rust `u8` arithmetic). -/
def sub8 (a b : Nat) : Nat := (a % 256 + (256 - b % 256)) % 256

/-- Wrapping subtraction on 16-bit values (Rust `u16` arithmetic). -/
def sub16 (a b : Nat) : Nat := (a % 65536 + (65536 - b % 65536)) % 65536

/-- Wrapping subtraction on 32-bit values (Rust `u32` arithmetic); the
draw engine flips a pixel with `1 - frame_bit` on `u32` cells. -/
def sub32 (a b : Nat) : Nat :=
  (a % 4294967296 + (4294967296 - b % 4294967296)) % 4294967296

/-! ## Framebuffer (src/framebuffer.rs) -/

/-- The pixel grid of `Framebuffer`: row index, then column index, to the
`u32` cell value (the source stores each pixel as a whole `u32`). -/
abbrev Frame := Nat → Nat → Nat

/-- Write one framebuffer cell (`self.frame[frame_y][frame_x] = v`). -/
def updF (f : Frame) (y x v : Nat) : Frame :=
  fun y' x' => if y' = y ∧ x' = x then v else f y' x'

/-- Inner loop of `Framebuffer::draw_sprite`: one sprite row byte `s`
drawn at row `frame_y`, iterating over the bit offsets in `xs`
(the source iterates `for x in 0..8`).  Clips (breaks) as soon as
`start_x + x` reaches the display width; a set sprite bit flips the cell
and overwrites the collision flag with the cell's prior state. -/
def drawBits (frame : Frame) (col : Bool) (s start_x frame_y : Nat) :
    List Nat → Frame × Bool
  | [] => (frame, col)
  | x :: xs =>
    if DISPLAY_WIDTH ≤ start_x + x then (frame, col)
    else if s.testBit (7 - x) then
      drawBits (updF frame frame_y (start_x + x)
          (sub32 1 (frame frame_y (start_x + x))))
        (frame frame_y (start_x + x) == 1) s start_x frame_y xs
    else drawBits frame col s start_x frame_y xs

/-- Outer loop of `Framebuffer::draw_sprite`: iterate the sprite bytes,
row `n` drawn at `start_y + n`, stopping (clipping) as soon as that row
index reaches the display height. -/
def drawRows (frame : Frame) (col : Bool) (start_x start_y n : Nat) :
    List Nat → Frame × Bool
  | [] => (frame, col)
  | s :: rest =>
    if DISPLAY_HEIGHT ≤ start_y + n then (frame, col)
    else
      drawRows (drawBits frame col s start_x (start_y + n) (List.range 8)).1
        (drawBits frame col s start_x (start_y + n) (List.range 8)).2
        start_x start_y (n + 1) rest

/-- `Framebuffer::draw_sprite`: resets the collision flag, wraps the start
coordinates modulo the display dimensions, then draws the sprite rows.
Returns the final frame together with the collision flag (the source
returns it through the `colisions: &mut bool` out-parameter). -/
def draw_sprite (frame : Frame) (sprite : List Nat) (start_x start_y : Nat) :
    Frame × Bool :=
  drawRows frame false (start_x % DISPLAY_WIDTH) (start_y % DISPLAY_HEIGHT)
    0 sprite

/-! ## Pointwise characterisation of the draw engine -/

/-- Whether the inner loop flips the cell in column `c` of the row drawn
from byte `s` at row start column `start_x`. -/
def rowHit (s start_x c : Nat) : Bool :=
  (List.range 8).any fun x =>
    decide (start_x + x < DISPLAY_WIDTH) && (c == start_x + x) &&
      s.testBit (7 - x)

/-- Whether `drawRows` starting at row counter `n` flips the cell `(r, c)`. -/
def flipped : List Nat → Nat → Nat → Nat → Nat → Nat → Bool
  | [], _, _, _, _, _ => false
  | s :: rest, start_x, start_y, n, r, c =>
    if DISPLAY_HEIGHT ≤ start_y + n then false
    else ((r == start_y + n) && rowHit s start_x c) ||
      flipped rest start_x start_y (n + 1) r c
/-! ## Instruction decoder (src/instr.rs) -/

/-- Decoded instruction fields, as in `Instr`. -/
structure Instr where
  opcode : Nat
  c : Nat
  x : Nat
  y : Nat
  n : Nat
  nn : Nat
  nnn : Nat

/-- `Instr::new`: pure field extraction from the 16-bit word. -/
def Instr.new (opcode : Nat) : Instr where
  opcode := opcode
  c := (opcode &&& 0xf000) >>> 12
  x := (opcode &&& 0x0f00) >>> 8
  y := (opcode &&& 0x00f0) >>> 4
  n := opcode &&& 0x000f
  nn := opcode &&& 0x00ff
  nnn := opcode &&& 0x0fff

/-! ## Quirk profile (src/profile.rs) -/

/-- The four quirk toggles of `Profile`. -/
structure Profile where
  op_8xy6_use_vy : Bool
  op_8xye_use_vy : Bool
  op_fx55_store_i : Bool
  op_fx65_store_i : Bool

/-- `Profile::original()`: all four toggles on. -/
def Profile.original : Profile := ⟨true, true, true, true⟩

/-- `Profile::modern()`: all four toggles off. -/
def Profile.modern : Profile := ⟨false, false, false, false⟩

/-! ## RAM (src/ram.rs) -/

/-- `Ram::read_u16`: big-endian 16-bit read of two bytes. -/
def read_u16 (mem : Nat → Nat) (addr : Nat) : Nat :=
  256 * mem addr + mem (addr + 1)

/-- `Ram::write_u16`: big-endian 16-bit write of two bytes. -/
def write_u16 (mem : Nat → Nat) (addr v : Nat) : Nat → Nat :=
  upd (upd mem addr ((v &&& 0xff00) >>> 8)) (addr + 1) (v &&& 0xff)

/-- `Ram::load_block_u16`: store a block of 16-bit words from `addr`. -/
def load_block_u16 (mem : Nat → Nat) (addr : Nat) : List Nat → (Nat → Nat)
  | [] => mem
  | op :: rest => load_block_u16 (write_u16 mem addr op) (addr + 2) rest

/-! ## Register file and machine state (src/regs.rs, src/chip.rs) -/

/-- The register file `RegMap`. -/
structure RegMap where
  vx : Nat → Nat
  dt : Nat
  st : Nat
  i : Nat
  pc : Nat
  sp : Nat

/-- The whole machine state `Chip`.  The external `oorandom` generator is
abstracted as the pre-determined stream `rndSeq` of its successive
`rand_range(0..0x100)` outputs together with the position `rndIdx`
(§4.5 of the design requires only a deterministic seeded byte source). -/
structure Chip where
  mem : Nat → Nat
  sprite_addr : Nat → Nat
  regs : RegMap
  stack : Nat → Nat
  keys : Nat → Bool
  frame : Frame
  rndSeq : Nat → Nat
  rndIdx : Nat
  profile : Profile

/-- `Chip::key_press`. -/
def key_press (ch : Chip) (key : Nat) : Chip :=
  { ch with keys := fun j => if j = key then true else ch.keys j }

/-- `Chip::key_unpress`. -/
def key_unpress (ch : Chip) (key : Nat) : Chip :=
  { ch with keys := fun j => if j = key then false else ch.keys j }

/-- `self.keys.iter().position(|&pressed| pressed)`: index of the first
pressed key among the 16 keypad entries. -/
def keyPosition (keys : Nat → Bool) : Option Nat :=
  (List.range 16).find? fun k => keys k

/-- The memory effect of the `Fx55` register dump:
`for i in 0..=x { ram.write_u8(I + i, vx[i]) }`. -/
def storeRegs (mem : Nat → Nat) (vx : Nat → Nat) (base x : Nat) : Nat → Nat :=
  (List.range (x + 1)).foldl (fun m k => upd m (base + k) (vx k)) mem

/-- The register effect of the `Fx65` register load:
`for i in 0..=x { vx[i] = ram.read_u8(I + i) }`. -/
def loadRegs (vx : Nat → Nat) (mem : Nat → Nat) (base x : Nat) : Nat → Nat :=
  (List.range (x + 1)).foldl (fun v k => upd v k (mem (base + k))) vx

/-- Dispatch and execution of one decoded instruction: the `match instr`
of `Chip::cycle`, applied to the state whose PC has already been advanced
past the fetched word.  The arms appear in source order; the final
`panic!("Unknown opcode")` is modelled as `none`. -/
def execInstr (ch : Chip) (i : Instr) : Option Chip :=
  if i.opcode = 0x00E0 then
    -- CLS
    some { ch with frame := fun _ _ => 0 }
  else if i.opcode = 0x00EE then
    -- RET
    some { ch with regs := { ch.regs with
      sp := sub8 ch.regs.sp 1,
      pc := ch.stack (sub8 ch.regs.sp 1) } }
  else if i.c = 0x1 then
    -- JP addr
    some { ch with regs := { ch.regs with pc := i.nnn } }
  else if i.c = 0x2 then
    -- CALL addr
    some { ch with
      stack := upd ch.stack ch.regs.sp ch.regs.pc,
      regs := { ch.regs with sp := (ch.regs.sp + 1) % 256, pc := i.nnn } }
  else if i.c = 0x3 then
    -- SE Vx, nn
    some (if ch.regs.vx i.x = i.nn then
      { ch with regs := { ch.regs with pc := (ch.regs.pc + 2) % 65536 } }
    else ch)
  else if i.c = 0x4 then
    -- SNE Vx, nn
    some (if ch.regs.vx i.x ≠ i.nn then
      { ch with regs := { ch.regs with pc := (ch.regs.pc + 2) % 65536 } }
    else ch)
  else if i.c = 0x5 ∧ i.n = 0x0 then
    -- SE Vx, Vy
    some (if ch.regs.vx i.x = ch.regs.vx i.y then
      { ch with regs := { ch.regs with pc := (ch.regs.pc + 2) % 65536 } }
    else ch)
  else if i.c = 0x6 then
    -- LD Vx, nn
    some { ch with regs := { ch.regs with vx := upd ch.regs.vx i.x i.nn } }
  else if i.c = 0x7 then
    -- ADD Vx, nn
    some { ch with regs := { ch.regs with
      vx := upd ch.regs.vx i.x ((ch.regs.vx i.x + i.nn) % 256) } }
  else if i.c = 0x8 ∧ i.n = 0x0 then
    -- LD Vx, Vy
    some { ch with regs := { ch.regs with
      vx := upd ch.regs.vx i.x (ch.regs.vx i.y) } }
  else if i.c = 0x8 ∧ i.n = 0x1 then
    -- OR Vx, Vy
    some { ch with regs := { ch.regs with
      vx := upd ch.regs.vx i.x (ch.regs.vx i.x ||| ch.regs.vx i.y) } }
  else if i.c = 0x8 ∧ i.n = 0x2 then
    -- AND Vx, Vy
    some { ch with regs := { ch.regs with
      vx := upd ch.regs.vx i.x (ch.regs.vx i.x &&& ch.regs.vx i.y) } }
  else if i.c = 0x8 ∧ i.n = 0x3 then
    -- XOR Vx, Vy
    some { ch with regs := { ch.regs with
      vx := upd ch.regs.vx i.x (ch.regs.vx i.x ^^^ ch.regs.vx i.y) } }
  else if i.c = 0x8 ∧ i.n = 0x4 then
    -- ADD Vx, Vy; VF := carry, written after the sum
    some { ch with regs := { ch.regs with
      vx := upd (upd ch.regs.vx i.x ((ch.regs.vx i.x + ch.regs.vx i.y) % 256))
        0xF (if 256 ≤ ch.regs.vx i.x + ch.regs.vx i.y then 1 else 0) } }
  else if i.c = 0x8 ∧ i.n = 0x5 then
    -- SUB Vx, Vy; VF := not borrow, written after the difference
    some { ch with regs := { ch.regs with
      vx := upd (upd ch.regs.vx i.x (sub8 (ch.regs.vx i.x) (ch.regs.vx i.y)))
        0xF (if ch.regs.vx i.x < ch.regs.vx i.y then 0 else 1) } }
  else if i.c = 0x8 ∧ i.n = 0x6 then
    -- SHR Vx, Vy: optional copy, then VF := low bit, then the shift
    some { ch with regs := { ch.regs with
      vx :=
        let v1 := if ch.profile.op_8xy6_use_vy then
            upd ch.regs.vx i.x (ch.regs.vx i.y)
          else ch.regs.vx
        let v2 := upd v1 0xF (v1 i.x &&& 0x01)
        upd v2 i.x (v2 i.x >>> 1) } }
  else if i.c = 0x8 ∧ i.n = 0x7 then
    -- SUBN Vx, Vy
    some { ch with regs := { ch.regs with
      vx := upd (upd ch.regs.vx i.x (sub8 (ch.regs.vx i.y) (ch.regs.vx i.x)))
        0xF (if ch.regs.vx i.y < ch.regs.vx i.x then 0 else 1) } }
  else if i.c = 0x8 ∧ i.n = 0xE then
    -- SHL Vx, Vy: optional copy, then VF := high bit, then the shift
    some { ch with regs := { ch.regs with
      vx :=
        let v1 := if ch.profile.op_8xye_use_vy then
            upd ch.regs.vx i.x (ch.regs.vx i.y)
          else ch.regs.vx
        let v2 := upd v1 0xF (if v1 i.x &&& 0x80 ≠ 0 then 1 else 0)
        upd v2 i.x ((v2 i.x <<< 1) % 256) } }
  else if i.c = 0x9 ∧ i.n = 0x0 then
    -- SNE Vx, Vy
    some (if ch.regs.vx i.x ≠ ch.regs.vx i.y then
      { ch with regs := { ch.regs with pc := (ch.regs.pc + 2) % 65536 } }
    else ch)
  else if i.c = 0xA then
    -- LD I, nnn
    some { ch with regs := { ch.regs with i := i.nnn } }
  else if i.c = 0xB then
    -- JP V0, nnn
    some { ch with regs := { ch.regs with
      pc := (ch.regs.vx 0 + i.nnn) % 65536 } }
  else if i.c = 0xC then
    -- RND Vx, nn
    some { ch with
      regs := { ch.regs with
        vx := upd ch.regs.vx i.x ((ch.rndSeq ch.rndIdx % 256) &&& i.nn) },
      rndIdx := ch.rndIdx + 1 }
  else if i.c = 0xD then
    -- DRW Vx, Vy, n
    some { ch with
      frame := (draw_sprite ch.frame
        ((List.range i.n).map fun k => ch.mem (ch.regs.i + k))
        (ch.regs.vx i.x) (ch.regs.vx i.y)).1,
      regs := { ch.regs with
        vx := upd ch.regs.vx 0xF
          (if (draw_sprite ch.frame
              ((List.range i.n).map fun k => ch.mem (ch.regs.i + k))
              (ch.regs.vx i.x) (ch.regs.vx i.y)).2 then 1 else 0) } }
  else if i.c = 0xE ∧ i.nn = 0x9E then
    -- SKP Vx
    some (if ch.keys (ch.regs.vx i.x) then
      { ch with regs := { ch.regs with pc := (ch.regs.pc + 2) % 65536 } }
    else ch)
  else if i.c = 0xE ∧ i.nn = 0xA1 then
    -- SKPN Vx
    some (if ¬ch.keys (ch.regs.vx i.x) then
      { ch with regs := { ch.regs with pc := (ch.regs.pc + 2) % 65536 } }
    else ch)
  else if i.c = 0xF ∧ i.nn = 0x07 then
    -- LD Vx, DT
    some { ch with regs := { ch.regs with
      vx := upd ch.regs.vx i.x ch.regs.dt } }
  else if i.c = 0xF ∧ i.nn = 0x0A then
    -- LD Vx, K
    some (match keyPosition ch.keys with
      | some k => { ch with regs := { ch.regs with vx := upd ch.regs.vx i.x k } }
      | none => { ch with regs := { ch.regs with pc := sub16 ch.regs.pc 2 } })
  else if i.c = 0xF ∧ i.nn = 0x15 then
    -- LD DT, Vx
    some { ch with regs := { ch.regs with dt := ch.regs.vx i.x } }
  else if i.c = 0xF ∧ i.nn = 0x18 then
    -- LD ST, Vx
    some { ch with regs := { ch.regs with st := ch.regs.vx i.x } }
  else if i.c = 0xF ∧ i.nn = 0x1E then
    -- ADD I, Vx
    some { ch with regs := { ch.regs with
      i := (ch.regs.i + ch.regs.vx i.x) % 65536 } }
  else if i.c = 0xF ∧ i.nn = 0x29 then
    -- LD F, Vx
    some { ch with regs := { ch.regs with
      i := ch.sprite_addr (ch.regs.vx i.x) } }
  else if i.c = 0xF ∧ i.nn = 0x33 then
    -- LD B, Vx
    some { ch with
      mem :=
        upd (upd (upd ch.mem ch.regs.i (ch.regs.vx i.x / 100))
          (ch.regs.i + 1) (ch.regs.vx i.x / 10 % 10))
          (ch.regs.i + 2) (ch.regs.vx i.x % 10) }
  else if i.c = 0xF ∧ i.nn = 0x55 then
    -- LD [I], Vx
    some { ch with
      mem := storeRegs ch.mem ch.regs.vx ch.regs.i i.x,
      regs := { ch.regs with
        i := if ch.profile.op_fx55_store_i then
            (ch.regs.i + i.x + 1) % 65536
          else ch.regs.i } }
  else if i.c = 0xF ∧ i.nn = 0x65 then
    -- LD Vx, [I]
    some { ch with regs := { ch.regs with
      vx := loadRegs ch.regs.vx ch.mem ch.regs.i i.x,
      i := if ch.profile.op_fx65_store_i then
          (ch.regs.i + i.x + 1) % 65536
        else ch.regs.i } }
  else none

/-- `Chip::cycle`: fetch the big-endian word at PC, decode, advance PC by
2, then dispatch. -/
def cycle (ch : Chip) : Option Chip :=
  execInstr { ch with regs := { ch.regs with pc := (ch.regs.pc + 2) % 65536 } }
    (Instr.new (read_u16 ch.mem ch.regs.pc))

/-- `Chip::load_rom`: reinterpret the byte buffer as big-endian 16-bit
words (dropping a trailing odd byte) and store them from `start`. -/
def load_rom (ch : Chip) (rom : List Nat) (start : Nat) : Chip :=
  { ch with
    mem :=
      load_block_u16 ch.mem start
        ((List.range (rom.length / 2)).map fun k =>
          256 * rom.getD (2 * k) 0 + rom.getD (2 * k + 1) 0) }

/-! ## The defined (class, discriminant) combinations -/

/-- The (class, discriminant) combinations with a handler, transcribed
from the spec's opcode table (§4.7): a word is "known" exactly when it
matches one of the table rows. -/
def knownOpcode (w : Nat) : Bool :=
  (Instr.new w).opcode == 0x00E0 || (Instr.new w).opcode == 0x00EE ||
  (Instr.new w).c == 0x1 || (Instr.new w).c == 0x2 ||
  (Instr.new w).c == 0x3 || (Instr.new w).c == 0x4 ||
  ((Instr.new w).c == 0x5 && (Instr.new w).n == 0x0) ||
  (Instr.new w).c == 0x6 || (Instr.new w).c == 0x7 ||
  ((Instr.new w).c == 0x8 &&
    ((Instr.new w).n == 0x0 || (Instr.new w).n == 0x1 ||
     (Instr.new w).n == 0x2 || (Instr.new w).n == 0x3 ||
     (Instr.new w).n == 0x4 || (Instr.new w).n == 0x5 ||
     (Instr.new w).n == 0x6 || (Instr.new w).n == 0x7 ||
     (Instr.new w).n == 0xE)) ||
  ((Instr.new w).c == 0x9 && (Instr.new w).n == 0x0) ||
  (Instr.new w).c == 0xA || (Instr.new w).c == 0xB ||
  (Instr.new w).c == 0xC || (Instr.new w).c == 0xD ||
  ((Instr.new w).c == 0xE &&
    ((Instr.new w).nn == 0x9E || (Instr.new w).nn == 0xA1)) ||
  ((Instr.new w).c == 0xF &&
    ((Instr.new w).nn == 0x07 || (Instr.new w).nn == 0x0A ||
     (Instr.new w).nn == 0x15 || (Instr.new w).nn == 0x18 ||
     (Instr.new w).nn == 0x1E || (Instr.new w).nn == 0x29 ||
     (Instr.new w).nn == 0x33 || (Instr.new w).nn == 0x55 ||
     (Instr.new w).nn == 0x65))

/-- Whether the fetched instruction is a skip whose condition is
satisfied in state `ch` (spec rows 3xnn, 4xnn, 5xy0, 9xy0, Ex9E, ExA1). -/
def skipTaken (ch : Chip) (i : Instr) : Bool :=
  (i.c == 0x3 && (ch.regs.vx i.x == i.nn)) ||
  (i.c == 0x4 && !(ch.regs.vx i.x == i.nn)) ||
  (i.c == 0x5 && i.n == 0x0 && (ch.regs.vx i.x == ch.regs.vx i.y)) ||
  (i.c == 0x9 && i.n == 0x0 && !(ch.regs.vx i.x == ch.regs.vx i.y)) ||
  (i.c == 0xE && i.nn == 0x9E && ch.keys (ch.regs.vx i.x)) ||
  (i.c == 0xE && i.nn == 0xA1 && !ch.keys (ch.regs.vx i.x))

/-- The spec's classification of the post-cycle program counter, written
from the spec's words: JP/CALL/RET/Bnnn go to their computed target, a
satisfied skip gives `pc + 4`, an unsatisfied `Fx0A` leaves `pc`
unchanged, and everything else gives `pc + 2`. -/
def pcSpecW (ch : Chip) (i : Instr) : Nat :=
  if i.c == 0x1 then i.nnn
  else if i.c == 0x2 then i.nnn
  else if i.opcode == 0x00EE then ch.stack (sub8 ch.regs.sp 1)
  else if i.c == 0xB then (ch.regs.vx 0 + i.nnn) % 65536
  else if skipTaken ch i then ch.regs.pc + 4
  else if i.c == 0xF && i.nn == 0x0A && (keyPosition ch.keys).isNone then
    ch.regs.pc
  else ch.regs.pc + 2

/-- The spec classification applied to the word fetched at the current PC. -/
def pcSpec (ch : Chip) : Nat :=
  pcSpecW ch (Instr.new (read_u16 ch.mem ch.regs.pc))

/-! ## Concrete states for the examples -/

/-- An all-zero machine state with PC = 0x200 (the conventional program
start), used to build the concrete states of the examples below. -/
def chip0 : Chip where
  mem := fun _ => 0
  sprite_addr := fun _ => 0
  regs := { vx := fun _ => 0, dt := 0, st := 0, i := 0, pc := 0x200, sp := 0 }
  stack := fun _ => 0
  keys := fun _ => false
  frame := fun _ _ => 0
  rndSeq := fun _ => 0
  rndIdx := 0
  profile := Profile.modern

/-- A framebuffer whose only lit pixel is (0,0). -/
def frameC1 : Frame := fun r c => if r = 0 ∧ c = 0 then 1 else 0

/-- State about to execute `0x8FF6` (SHR VF, VF) with VF = 1 under the
modern profile. -/
def chipC2 : Chip := { chip0 with
  mem := fun a => if a = 0x200 then 0x8F else if a = 0x201 then 0xF6 else 0,
  regs := { chip0.regs with vx := fun j => if j = 0xF then 1 else 0 } }

/-- State about to execute `0x1320` (JP 0x320). -/
def chipC3 : Chip := { chip0 with
  mem := fun a => if a = 0x200 then 0x13 else if a = 0x201 then 0x20 else 0 }

/-- State about to execute `0x8236` (SHR V2, V3) under the modern profile. -/
def chipC4 : Chip := { chip0 with
  mem := fun a => if a = 0x200 then 0x82 else if a = 0x201 then 0x36 else 0 }

/-- `chipC4` with V3 (the Vy the modern shift never reads) changed to 1. -/
def chipC4' : Chip := { chipC4 with
  regs := { chipC4.regs with vx := upd chipC4.regs.vx 3 1 } }

/-- State about to execute `0xF255` (LD [I], V2) with I = 0x300 under the
original profile. -/
def chipC7 : Chip := { chip0 with
  mem := fun a => if a = 0x200 then 0xF2 else if a = 0x201 then 0x55 else 0,
  regs := { chip0.regs with i := 0x300 },
  profile := Profile.original }

/-- State about to execute `0xF30A` (LD V3, K) with key 5 pressed. -/
def chipC8 : Chip := { chip0 with
  mem := fun a => if a = 0x200 then 0xF3 else if a = 0x201 then 0x0A else 0,
  keys := fun j => j == 5 }

/-! ## Theorems -/

@[simp] theorem Instr.opcode_new (w : Nat) : (Instr.new w).opcode = w := rfl

@[simp] theorem Instr.c_new (w : Nat) : (Instr.new w).c = (w &&& 0xf000) >>> 12 := rfl

@[simp] theorem Instr.x_new (w : Nat) : (Instr.new w).x = (w &&& 0x0f00) >>> 8 := rfl

@[simp] theorem Instr.y_new (w : Nat) : (Instr.new w).y = (w &&& 0x00f0) >>> 4 := rfl

@[simp] theorem Instr.n_new (w : Nat) : (Instr.new w).n = w &&& 0x000f := rfl

@[simp] theorem Instr.nn_new (w : Nat) : (Instr.new w).nn = w &&& 0x00ff := rfl

@[simp] theorem Instr.nnn_new (w : Nat) : (Instr.new w).nnn = w &&& 0x0fff := rfl


theorem sub32_sub32 (b : Nat) (h : b < 4294967296) : sub32 1 (sub32 1 b) = b := by
  unfold sub32; omega

theorem sub32_lt (a b : Nat) : sub32 a b < 4294967296 := by
  unfold sub32; omega

theorem updF_same (f : Frame) (y x v : Nat) : updF f y x v y x = v := by
  simp [updF]

theorem updF_ne (f : Frame) (y x v r c : Nat) (h : ¬(r = y ∧ c = x)) :
    updF f y x v r c = f r c := by
  simp only [updF, if_neg h]

theorem drawBits_fst (s start_x frame_y : Nat) :
    ∀ (n k : Nat) (frame : Frame) (col : Bool) (r c : Nat),
    (drawBits frame col s start_x frame_y (List.range' k n)).1 r c =
      if (r == frame_y) &&
          ((List.range' k n).any fun x =>
            decide (start_x + x < DISPLAY_WIDTH) && (c == start_x + x) &&
              s.testBit (7 - x)) then
        sub32 1 (frame r c)
      else frame r c := by
  intro n
  induction n with
  | zero => intro k frame col r c; simp [drawBits]
  | succ m ih =>
    intro k frame col r c
    rw [List.range'_succ k m 1]
    by_cases hw : DISPLAY_WIDTH ≤ start_x + k
    · -- clipped: every remaining offset is out of bounds as well
      have hany : ((k :: List.range' (k + 1) m).any fun x =>
          decide (start_x + x < DISPLAY_WIDTH) && (c == start_x + x) &&
            s.testBit (7 - x)) = false := by
        simp only [List.any_eq_false]
        intro x hx
        have hxk : k ≤ x := by
          rcases List.mem_cons.1 hx with h1 | h1
          · omega
          · have := (List.mem_range'_1.1 h1).1; omega
        have hnlt : ¬(start_x + x < DISPLAY_WIDTH) := by omega
        simp [hnlt]
      simp only [drawBits, if_pos hw, hany]
      simp
    · have hwlt : start_x + k < DISPLAY_WIDTH := by omega
      simp only [drawBits, if_neg hw]
      by_cases hb : s.testBit (7 - k)
      · rw [if_pos hb, ih, List.any_cons]
        by_cases hr : r = frame_y
        · have hbr : (r == frame_y) = true := by simp [hr]
          by_cases hc : c = start_x + k
          · have htail : ((List.range' (k + 1) m).any fun x =>
                decide (start_x + x < DISPLAY_WIDTH) && (c == start_x + x) &&
                  s.testBit (7 - x)) = false := by
              simp only [List.any_eq_false]
              intro x hx
              have hxk := (List.mem_range'_1.1 hx).1
              have hne : (c == start_x + x) = false := by
                simp only [beq_eq_false_iff_ne, ne_eq]; omega
              simp [hne]
            have hhead : (decide (start_x + k < DISPLAY_WIDTH) &&
                (c == start_x + k) && s.testBit (7 - k)) = true := by
              simp [hwlt, hb, hc]
            rw [htail, hhead, hbr]
            simp only [Bool.and_false, Bool.true_or, Bool.true_and]
            rw [hr, hc, updF_same]
            simp
          · have hhead : (decide (start_x + k < DISPLAY_WIDTH) &&
                (c == start_x + k) && s.testBit (7 - k)) = false := by
              have hne : (c == start_x + k) = false := by
                simp only [beq_eq_false_iff_ne, ne_eq]; exact hc
              simp [hne]
            have hf1 : updF frame frame_y (start_x + k)
                (sub32 1 (frame frame_y (start_x + k))) r c = frame r c :=
              updF_ne _ _ _ _ _ _ (by intro h; exact hc h.2)
            rw [hhead, Bool.false_or, hf1]
        · have hbr : (r == frame_y) = false := by
            simp only [beq_eq_false_iff_ne, ne_eq]; exact hr
          have hf1 : updF frame frame_y (start_x + k)
              (sub32 1 (frame frame_y (start_x + k))) r c = frame r c :=
            updF_ne _ _ _ _ _ _ (by intro h; exact hr h.1)
          rw [hbr, hf1]
          simp
      · rw [if_neg hb, ih, List.any_cons]
        have hhead : (decide (start_x + k < DISPLAY_WIDTH) &&
            (c == start_x + k) && s.testBit (7 - k)) = false := by
          have hbb : s.testBit (7 - k) = false := by
            simpa using hb
          simp [hbb]
        rw [hhead, Bool.false_or]

theorem flipped_row_le {sp : List Nat} {start_x start_y n r c : Nat}
    (h : flipped sp start_x start_y n r c = true) : start_y + n ≤ r := by
  induction sp generalizing n with
  | nil => simp [flipped] at h
  | cons s rest ih =>
    rw [flipped] at h
    by_cases hh : DISPLAY_HEIGHT ≤ start_y + n
    · rw [if_pos hh] at h; exact absurd h (by simp)
    · rw [if_neg hh, Bool.or_eq_true] at h
      rcases h with h1 | h1
      · rw [Bool.and_eq_true] at h1
        have hre : r = start_y + n := by simpa using h1.1
        omega
      · have := ih h1
        omega

theorem drawRows_fst (start_x start_y : Nat) :
    ∀ (sp : List Nat) (n : Nat) (frame : Frame) (col : Bool) (r c : Nat),
    (drawRows frame col start_x start_y n sp).1 r c =
      if flipped sp start_x start_y n r c then sub32 1 (frame r c)
      else frame r c := by
  intro sp
  induction sp with
  | nil => intro n frame col r c; simp [drawRows, flipped]
  | cons s rest ih =>
    intro n frame col r c
    rw [drawRows, flipped]
    by_cases hh : DISPLAY_HEIGHT ≤ start_y + n
    · simp [hh]
    · rw [if_neg hh, if_neg hh, ih]
      have hbits : (drawBits frame col s start_x (start_y + n) (List.range 8)).1 r c =
          if (r == start_y + n) && rowHit s start_x c then sub32 1 (frame r c)
          else frame r c := by
        rw [rowHit, List.range_eq_range' 8, drawBits_fst s start_x (start_y + n) 8 0]
      cases h1 : ((r == start_y + n) && rowHit s start_x c) with
      | true =>
        have h2 : flipped rest start_x start_y (n + 1) r c = false := by
          cases h3 : flipped rest start_x start_y (n + 1) r c with
          | false => rfl
          | true =>
            have hle := flipped_row_le h3
            have h1' := h1
            rw [Bool.and_eq_true] at h1'
            have hre : r = start_y + n := by simpa using h1'.1
            omega
        rw [h2, hbits, h1]
        simp
      | false =>
        rw [hbits, h1]
        simp

theorem drawRows_take (start_x start_y : Nat) :
    ∀ (sp : List Nat) (n : Nat) (frame : Frame) (col : Bool),
    drawRows frame col start_x start_y n sp =
      drawRows frame col start_x start_y n
        (sp.take (DISPLAY_HEIGHT - start_y - n)) := by
  intro sp
  induction sp with
  | nil => intro n frame col; simp
  | cons s rest ih =>
    intro n frame col
    by_cases hh : DISPLAY_HEIGHT ≤ start_y + n
    · have h0 : DISPLAY_HEIGHT - start_y - n = 0 := by omega
      rw [h0, List.take_zero]
      simp only [drawRows, if_pos hh]
    · have h1 : DISPLAY_HEIGHT - start_y - n =
        (DISPLAY_HEIGHT - start_y - (n + 1)) + 1 := by omega
      rw [h1, List.take_succ_cons, drawRows, if_neg hh, drawRows, if_neg hh, ih]

theorem drawBits_takeWhile (s start_x frame_y : Nat) :
    ∀ (xs : List Nat) (frame : Frame) (col : Bool),
    drawBits frame col s start_x frame_y xs =
      drawBits frame col s start_x frame_y
        (xs.takeWhile fun x => decide (start_x + x < DISPLAY_WIDTH)) := by
  intro xs
  induction xs with
  | nil => intro frame col; simp
  | cons x rest ih =>
    intro frame col
    by_cases hw : DISPLAY_WIDTH ≤ start_x + x
    · have hp : decide (start_x + x < DISPLAY_WIDTH) = false := by
        simp only [decide_eq_false_iff_not]; omega
      rw [List.takeWhile_cons, hp]
      rw [drawBits, if_pos hw]
      simp [drawBits]
    · have hp : decide (start_x + x < DISPLAY_WIDTH) = true := by
        simp only [decide_eq_true_eq]; omega
      rw [List.takeWhile_cons, hp]
      simp only [if_true]
      rw [drawBits, drawBits, if_neg hw, if_neg hw]
      by_cases hb : s.testBit (7 - x)
      · rw [if_pos hb, if_pos hb, ih]
      · rw [if_neg hb, if_neg hb, ih]

/-! ## Characterisation of the individual dispatch arms

Each lemma fixes the decoded class (and discriminant) of the fetched word
and gives the explicit result of `execInstr` on the already-advanced
state `ch`. -/

theorem execInstr_00E0 (ch : Chip) :
    execInstr ch (Instr.new 0x00E0) =
      some { ch with frame := fun _ _ => 0 } := by
  simp [execInstr]

theorem execInstr_00EE (ch : Chip) :
    execInstr ch (Instr.new 0x00EE) =
      some { ch with regs := { ch.regs with
        sp := sub8 ch.regs.sp 1,
        pc := ch.stack (sub8 ch.regs.sp 1) } } := by
  simp [execInstr]

theorem execInstr_none0 (ch : Chip) (w : Nat)
    (hc : (w &&& 0xf000) >>> 12 = 0x0)
    (hE0 : ¬ w = 0x00E0) (hEE : ¬ w = 0x00EE) :
    execInstr ch (Instr.new w) = none := by
  unfold execInstr
  simp [hE0, hEE, hc]

theorem execInstr_1nnn (ch : Chip) (w : Nat)
    (hc : (w &&& 0xf000) >>> 12 = 0x1) :
    execInstr ch (Instr.new w) =
      some { ch with regs := { ch.regs with pc := (Instr.new w).nnn } } := by
  have hE0 : ¬ w = 0x00E0 := by rintro rfl; simp at hc
  have hEE : ¬ w = 0x00EE := by rintro rfl; simp at hc
  unfold execInstr
  simp [hE0, hEE, hc]

theorem execInstr_2nnn (ch : Chip) (w : Nat)
    (hc : (w &&& 0xf000) >>> 12 = 0x2) :
    execInstr ch (Instr.new w) =
      some { ch with
        stack := upd ch.stack ch.regs.sp ch.regs.pc,
        regs := { ch.regs with
          sp := (ch.regs.sp + 1) % 256, pc := (Instr.new w).nnn } } := by
  have hE0 : ¬ w = 0x00E0 := by rintro rfl; simp at hc
  have hEE : ¬ w = 0x00EE := by rintro rfl; simp at hc
  unfold execInstr
  simp [hE0, hEE, hc]

theorem execInstr_3xnn (ch : Chip) (w : Nat)
    (hc : (w &&& 0xf000) >>> 12 = 0x3) :
    execInstr ch (Instr.new w) =
      some (if ch.regs.vx (Instr.new w).x = (Instr.new w).nn then
        { ch with regs := { ch.regs with pc := (ch.regs.pc + 2) % 65536 } }
      else ch) := by
  have hE0 : ¬ w = 0x00E0 := by rintro rfl; simp at hc
  have hEE : ¬ w = 0x00EE := by rintro rfl; simp at hc
  unfold execInstr
  simp [hE0, hEE, hc]

theorem execInstr_4xnn (ch : Chip) (w : Nat)
    (hc : (w &&& 0xf000) >>> 12 = 0x4) :
    execInstr ch (Instr.new w) =
      some (if ch.regs.vx (Instr.new w).x ≠ (Instr.new w).nn then
        { ch with regs := { ch.regs with pc := (ch.regs.pc + 2) % 65536 } }
      else ch) := by
  have hE0 : ¬ w = 0x00E0 := by rintro rfl; simp at hc
  have hEE : ¬ w = 0x00EE := by rintro rfl; simp at hc
  unfold execInstr
  simp [hE0, hEE, hc]

theorem execInstr_5xy0 (ch : Chip) (w : Nat)
    (hc : (w &&& 0xf000) >>> 12 = 0x5) (hn : w &&& 0x000f = 0x0) :
    execInstr ch (Instr.new w) =
      some (if ch.regs.vx (Instr.new w).x = ch.regs.vx (Instr.new w).y then
        { ch with regs := { ch.regs with pc := (ch.regs.pc + 2) % 65536 } }
      else ch) := by
  have hE0 : ¬ w = 0x00E0 := by rintro rfl; simp at hc
  have hEE : ¬ w = 0x00EE := by rintro rfl; simp at hc
  unfold execInstr
  simp [hE0, hEE, hc, hn]

theorem execInstr_none5 (ch : Chip) (w : Nat)
    (hc : (w &&& 0xf000) >>> 12 = 0x5) (hn : ¬ w &&& 0x000f = 0x0) :
    execInstr ch (Instr.new w) = none := by
  have hE0 : ¬ w = 0x00E0 := by rintro rfl; simp at hc
  have hEE : ¬ w = 0x00EE := by rintro rfl; simp at hc
  unfold execInstr
  simp [hE0, hEE, hc, hn]

theorem execInstr_6xnn (ch : Chip) (w : Nat)
    (hc : (w &&& 0xf000) >>> 12 = 0x6) :
    execInstr ch (Instr.new w) =
      some { ch with regs := { ch.regs with
        vx := upd ch.regs.vx (Instr.new w).x (Instr.new w).nn } } := by
  have hE0 : ¬ w = 0x00E0 := by rintro rfl; simp at hc
  have hEE : ¬ w = 0x00EE := by rintro rfl; simp at hc
  unfold execInstr
  simp [hE0, hEE, hc]

theorem execInstr_7xnn (ch : Chip) (w : Nat)
    (hc : (w &&& 0xf000) >>> 12 = 0x7) :
    execInstr ch (Instr.new w) =
      some { ch with regs := { ch.regs with
        vx := upd ch.regs.vx (Instr.new w).x
          ((ch.regs.vx (Instr.new w).x + (Instr.new w).nn) % 256) } } := by
  have hE0 : ¬ w = 0x00E0 := by rintro rfl; simp at hc
  have hEE : ¬ w = 0x00EE := by rintro rfl; simp at hc
  unfold execInstr
  simp [hE0, hEE, hc]

theorem execInstr_8xy0 (ch : Chip) (w : Nat)
    (hc : (w &&& 0xf000) >>> 12 = 0x8) (hn : w &&& 0x000f = 0x0) :
    execInstr ch (Instr.new w) =
      some { ch with regs := { ch.regs with
        vx := upd ch.regs.vx (Instr.new w).x
          (ch.regs.vx (Instr.new w).y) } } := by
  have hE0 : ¬ w = 0x00E0 := by rintro rfl; simp at hc
  have hEE : ¬ w = 0x00EE := by rintro rfl; simp at hc
  unfold execInstr
  simp [hE0, hEE, hc, hn]

theorem execInstr_8xy1 (ch : Chip) (w : Nat)
    (hc : (w &&& 0xf000) >>> 12 = 0x8) (hn : w &&& 0x000f = 0x1) :
    execInstr ch (Instr.new w) =
      some { ch with regs := { ch.regs with
        vx := upd ch.regs.vx (Instr.new w).x
          (ch.regs.vx (Instr.new w).x ||| ch.regs.vx (Instr.new w).y) } } := by
  have hE0 : ¬ w = 0x00E0 := by rintro rfl; simp at hc
  have hEE : ¬ w = 0x00EE := by rintro rfl; simp at hc
  unfold execInstr
  simp [hE0, hEE, hc, hn]

theorem execInstr_8xy2 (ch : Chip) (w : Nat)
    (hc : (w &&& 0xf000) >>> 12 = 0x8) (hn : w &&& 0x000f = 0x2) :
    execInstr ch (Instr.new w) =
      some { ch with regs := { ch.regs with
        vx := upd ch.regs.vx (Instr.new w).x
          (ch.regs.vx (Instr.new w).x &&& ch.regs.vx (Instr.new w).y) } } := by
  have hE0 : ¬ w = 0x00E0 := by rintro rfl; simp at hc
  have hEE : ¬ w = 0x00EE := by rintro rfl; simp at hc
  unfold execInstr
  simp [hE0, hEE, hc, hn]

theorem execInstr_8xy3 (ch : Chip) (w : Nat)
    (hc : (w &&& 0xf000) >>> 12 = 0x8) (hn : w &&& 0x000f = 0x3) :
    execInstr ch (Instr.new w) =
      some { ch with regs := { ch.regs with
        vx := upd ch.regs.vx (Instr.new w).x
          (ch.regs.vx (Instr.new w).x ^^^ ch.regs.vx (Instr.new w).y) } } := by
  have hE0 : ¬ w = 0x00E0 := by rintro rfl; simp at hc
  have hEE : ¬ w = 0x00EE := by rintro rfl; simp at hc
  unfold execInstr
  simp [hE0, hEE, hc, hn]

theorem execInstr_8xy4 (ch : Chip) (w : Nat)
    (hc : (w &&& 0xf000) >>> 12 = 0x8) (hn : w &&& 0x000f = 0x4) :
    execInstr ch (Instr.new w) = some { ch with regs := { ch.regs with
      vx := upd (upd ch.regs.vx (Instr.new w).x
          ((ch.regs.vx (Instr.new w).x + ch.regs.vx (Instr.new w).y) % 256))
        0xF (if 256 ≤ ch.regs.vx (Instr.new w).x + ch.regs.vx (Instr.new w).y
          then 1 else 0) } } := by
  have hE0 : ¬ w = 0x00E0 := by rintro rfl; simp at hc
  have hEE : ¬ w = 0x00EE := by rintro rfl; simp at hc
  unfold execInstr
  simp [hE0, hEE, hc, hn]

theorem execInstr_8xy5 (ch : Chip) (w : Nat)
    (hc : (w &&& 0xf000) >>> 12 = 0x8) (hn : w &&& 0x000f = 0x5) :
    execInstr ch (Instr.new w) = some { ch with regs := { ch.regs with
      vx := upd (upd ch.regs.vx (Instr.new w).x
          (sub8 (ch.regs.vx (Instr.new w).x) (ch.regs.vx (Instr.new w).y)))
        0xF (if ch.regs.vx (Instr.new w).x < ch.regs.vx (Instr.new w).y
          then 0 else 1) } } := by
  have hE0 : ¬ w = 0x00E0 := by rintro rfl; simp at hc
  have hEE : ¬ w = 0x00EE := by rintro rfl; simp at hc
  unfold execInstr
  simp [hE0, hEE, hc, hn]

theorem execInstr_8xy6 (ch : Chip) (w : Nat)
    (hc : (w &&& 0xf000) >>> 12 = 0x8) (hn : w &&& 0x000f = 0x6) :
    execInstr ch (Instr.new w) = some { ch with regs := { ch.regs with
      vx :=
        let v1 := if ch.profile.op_8xy6_use_vy then
            upd ch.regs.vx (Instr.new w).x (ch.regs.vx (Instr.new w).y)
          else ch.regs.vx
        let v2 := upd v1 0xF (v1 (Instr.new w).x &&& 0x01)
        upd v2 (Instr.new w).x (v2 (Instr.new w).x >>> 1) } } := by
  have hE0 : ¬ w = 0x00E0 := by rintro rfl; simp at hc
  have hEE : ¬ w = 0x00EE := by rintro rfl; simp at hc
  unfold execInstr
  simp [hE0, hEE, hc, hn]

theorem execInstr_8xy7 (ch : Chip) (w : Nat)
    (hc : (w &&& 0xf000) >>> 12 = 0x8) (hn : w &&& 0x000f = 0x7) :
    execInstr ch (Instr.new w) = some { ch with regs := { ch.regs with
      vx := upd (upd ch.regs.vx (Instr.new w).x
          (sub8 (ch.regs.vx (Instr.new w).y) (ch.regs.vx (Instr.new w).x)))
        0xF (if ch.regs.vx (Instr.new w).y < ch.regs.vx (Instr.new w).x
          then 0 else 1) } } := by
  have hE0 : ¬ w = 0x00E0 := by rintro rfl; simp at hc
  have hEE : ¬ w = 0x00EE := by rintro rfl; simp at hc
  unfold execInstr
  simp [hE0, hEE, hc, hn]

theorem execInstr_8xyE (ch : Chip) (w : Nat)
    (hc : (w &&& 0xf000) >>> 12 = 0x8) (hn : w &&& 0x000f = 0xE) :
    execInstr ch (Instr.new w) = some { ch with regs := { ch.regs with
      vx :=
        let v1 := if ch.profile.op_8xye_use_vy then
            upd ch.regs.vx (Instr.new w).x (ch.regs.vx (Instr.new w).y)
          else ch.regs.vx
        let v2 := upd v1 0xF (if v1 (Instr.new w).x &&& 0x80 ≠ 0 then 1 else 0)
        upd v2 (Instr.new w).x ((v2 (Instr.new w).x <<< 1) % 256) } } := by
  have hE0 : ¬ w = 0x00E0 := by rintro rfl; simp at hc
  have hEE : ¬ w = 0x00EE := by rintro rfl; simp at hc
  unfold execInstr
  simp [hE0, hEE, hc, hn]

theorem execInstr_none8 (ch : Chip) (w : Nat)
    (hc : (w &&& 0xf000) >>> 12 = 0x8)
    (h0 : ¬ w &&& 0x000f = 0x0) (h1 : ¬ w &&& 0x000f = 0x1)
    (h2 : ¬ w &&& 0x000f = 0x2) (h3 : ¬ w &&& 0x000f = 0x3)
    (h4 : ¬ w &&& 0x000f = 0x4) (h5 : ¬ w &&& 0x000f = 0x5)
    (h6 : ¬ w &&& 0x000f = 0x6) (h7 : ¬ w &&& 0x000f = 0x7)
    (hE : ¬ w &&& 0x000f = 0xE) :
    execInstr ch (Instr.new w) = none := by
  have hE0 : ¬ w = 0x00E0 := by rintro rfl; simp at hc
  have hEE : ¬ w = 0x00EE := by rintro rfl; simp at hc
  unfold execInstr
  simp [hE0, hEE, hc, h0, h1, h2, h3, h4, h5, h6, h7, hE]

theorem execInstr_9xy0 (ch : Chip) (w : Nat)
    (hc : (w &&& 0xf000) >>> 12 = 0x9) (hn : w &&& 0x000f = 0x0) :
    execInstr ch (Instr.new w) =
      some (if ch.regs.vx (Instr.new w).x ≠ ch.regs.vx (Instr.new w).y then
        { ch with regs := { ch.regs with pc := (ch.regs.pc + 2) % 65536 } }
      else ch) := by
  have hE0 : ¬ w = 0x00E0 := by rintro rfl; simp at hc
  have hEE : ¬ w = 0x00EE := by rintro rfl; simp at hc
  unfold execInstr
  simp [hE0, hEE, hc, hn]

theorem execInstr_none9 (ch : Chip) (w : Nat)
    (hc : (w &&& 0xf000) >>> 12 = 0x9) (hn : ¬ w &&& 0x000f = 0x0) :
    execInstr ch (Instr.new w) = none := by
  have hE0 : ¬ w = 0x00E0 := by rintro rfl; simp at hc
  have hEE : ¬ w = 0x00EE := by rintro rfl; simp at hc
  unfold execInstr
  simp [hE0, hEE, hc, hn]

theorem execInstr_Annn (ch : Chip) (w : Nat)
    (hc : (w &&& 0xf000) >>> 12 = 0xA) :
    execInstr ch (Instr.new w) =
      some { ch with regs := { ch.regs with i := (Instr.new w).nnn } } := by
  have hE0 : ¬ w = 0x00E0 := by rintro rfl; simp at hc
  have hEE : ¬ w = 0x00EE := by rintro rfl; simp at hc
  unfold execInstr
  simp [hE0, hEE, hc]

theorem execInstr_Bnnn (ch : Chip) (w : Nat)
    (hc : (w &&& 0xf000) >>> 12 = 0xB) :
    execInstr ch (Instr.new w) =
      some { ch with regs := { ch.regs with
        pc := (ch.regs.vx 0 + (Instr.new w).nnn) % 65536 } } := by
  have hE0 : ¬ w = 0x00E0 := by rintro rfl; simp at hc
  have hEE : ¬ w = 0x00EE := by rintro rfl; simp at hc
  unfold execInstr
  simp [hE0, hEE, hc]

theorem execInstr_Cxnn (ch : Chip) (w : Nat)
    (hc : (w &&& 0xf000) >>> 12 = 0xC) :
    execInstr ch (Instr.new w) =
      some { ch with
        regs := { ch.regs with
          vx := upd ch.regs.vx (Instr.new w).x
            ((ch.rndSeq ch.rndIdx % 256) &&& (Instr.new w).nn) },
        rndIdx := ch.rndIdx + 1 } := by
  have hE0 : ¬ w = 0x00E0 := by rintro rfl; simp at hc
  have hEE : ¬ w = 0x00EE := by rintro rfl; simp at hc
  unfold execInstr
  simp [hE0, hEE, hc]

theorem execInstr_Dxyn (ch : Chip) (w : Nat)
    (hc : (w &&& 0xf000) >>> 12 = 0xD) :
    execInstr ch (Instr.new w) =
      some { ch with
        frame := (draw_sprite ch.frame
          ((List.range (Instr.new w).n).map fun k => ch.mem (ch.regs.i + k))
          (ch.regs.vx (Instr.new w).x) (ch.regs.vx (Instr.new w).y)).1,
        regs := { ch.regs with
          vx := upd ch.regs.vx 0xF
            (if (draw_sprite ch.frame
                ((List.range (Instr.new w).n).map fun k => ch.mem (ch.regs.i + k))
                (ch.regs.vx (Instr.new w).x) (ch.regs.vx (Instr.new w).y)).2
              then 1 else 0) } } := by
  have hE0 : ¬ w = 0x00E0 := by rintro rfl; simp at hc
  have hEE : ¬ w = 0x00EE := by rintro rfl; simp at hc
  unfold execInstr
  simp [hE0, hEE, hc]

theorem execInstr_Ex9E (ch : Chip) (w : Nat)
    (hc : (w &&& 0xf000) >>> 12 = 0xE) (hnn : w &&& 0x00ff = 0x9E) :
    execInstr ch (Instr.new w) =
      some (if ch.keys (ch.regs.vx (Instr.new w).x) then
        { ch with regs := { ch.regs with pc := (ch.regs.pc + 2) % 65536 } }
      else ch) := by
  have hE0 : ¬ w = 0x00E0 := by rintro rfl; simp at hc
  have hEE : ¬ w = 0x00EE := by rintro rfl; simp at hc
  unfold execInstr
  simp [hE0, hEE, hc, hnn]

theorem execInstr_ExA1 (ch : Chip) (w : Nat)
    (hc : (w &&& 0xf000) >>> 12 = 0xE) (hnn : w &&& 0x00ff = 0xA1) :
    execInstr ch (Instr.new w) =
      some (if ¬ch.keys (ch.regs.vx (Instr.new w).x) then
        { ch with regs := { ch.regs with pc := (ch.regs.pc + 2) % 65536 } }
      else ch) := by
  have hE0 : ¬ w = 0x00E0 := by rintro rfl; simp at hc
  have hEE : ¬ w = 0x00EE := by rintro rfl; simp at hc
  unfold execInstr
  simp [hE0, hEE, hc, hnn]

theorem execInstr_noneE (ch : Chip) (w : Nat)
    (hc : (w &&& 0xf000) >>> 12 = 0xE)
    (h1 : ¬ w &&& 0x00ff = 0x9E) (h2 : ¬ w &&& 0x00ff = 0xA1) :
    execInstr ch (Instr.new w) = none := by
  have hE0 : ¬ w = 0x00E0 := by rintro rfl; simp at hc
  have hEE : ¬ w = 0x00EE := by rintro rfl; simp at hc
  unfold execInstr
  simp [hE0, hEE, hc, h1, h2]

theorem execInstr_Fx07 (ch : Chip) (w : Nat)
    (hc : (w &&& 0xf000) >>> 12 = 0xF) (hnn : w &&& 0x00ff = 0x07) :
    execInstr ch (Instr.new w) =
      some { ch with regs := { ch.regs with
        vx := upd ch.regs.vx (Instr.new w).x ch.regs.dt } } := by
  have hE0 : ¬ w = 0x00E0 := by rintro rfl; simp at hc
  have hEE : ¬ w = 0x00EE := by rintro rfl; simp at hc
  unfold execInstr
  simp [hE0, hEE, hc, hnn]

theorem execInstr_Fx0A (ch : Chip) (w : Nat)
    (hc : (w &&& 0xf000) >>> 12 = 0xF) (hnn : w &&& 0x00ff = 0x0A) :
    execInstr ch (Instr.new w) =
      some (match keyPosition ch.keys with
        | some k =>
          { ch with regs := { ch.regs with vx := upd ch.regs.vx (Instr.new w).x k } }
        | none =>
          { ch with regs := { ch.regs with pc := sub16 ch.regs.pc 2 } }) := by
  have hE0 : ¬ w = 0x00E0 := by rintro rfl; simp at hc
  have hEE : ¬ w = 0x00EE := by rintro rfl; simp at hc
  unfold execInstr
  simp [hE0, hEE, hc, hnn]

theorem execInstr_Fx15 (ch : Chip) (w : Nat)
    (hc : (w &&& 0xf000) >>> 12 = 0xF) (hnn : w &&& 0x00ff = 0x15) :
    execInstr ch (Instr.new w) =
      some { ch with regs := { ch.regs with dt := ch.regs.vx (Instr.new w).x } } := by
  have hE0 : ¬ w = 0x00E0 := by rintro rfl; simp at hc
  have hEE : ¬ w = 0x00EE := by rintro rfl; simp at hc
  unfold execInstr
  simp [hE0, hEE, hc, hnn]

theorem execInstr_Fx18 (ch : Chip) (w : Nat)
    (hc : (w &&& 0xf000) >>> 12 = 0xF) (hnn : w &&& 0x00ff = 0x18) :
    execInstr ch (Instr.new w) =
      some { ch with regs := { ch.regs with st := ch.regs.vx (Instr.new w).x } } := by
  have hE0 : ¬ w = 0x00E0 := by rintro rfl; simp at hc
  have hEE : ¬ w = 0x00EE := by rintro rfl; simp at hc
  unfold execInstr
  simp [hE0, hEE, hc, hnn]

theorem execInstr_Fx1E (ch : Chip) (w : Nat)
    (hc : (w &&& 0xf000) >>> 12 = 0xF) (hnn : w &&& 0x00ff = 0x1E) :
    execInstr ch (Instr.new w) =
      some { ch with regs := { ch.regs with
        i := (ch.regs.i + ch.regs.vx (Instr.new w).x) % 65536 } } := by
  have hE0 : ¬ w = 0x00E0 := by rintro rfl; simp at hc
  have hEE : ¬ w = 0x00EE := by rintro rfl; simp at hc
  unfold execInstr
  simp [hE0, hEE, hc, hnn]

theorem execInstr_Fx29 (ch : Chip) (w : Nat)
    (hc : (w &&& 0xf000) >>> 12 = 0xF) (hnn : w &&& 0x00ff = 0x29) :
    execInstr ch (Instr.new w) =
      some { ch with regs := { ch.regs with
        i := ch.sprite_addr (ch.regs.vx (Instr.new w).x) } } := by
  have hE0 : ¬ w = 0x00E0 := by rintro rfl; simp at hc
  have hEE : ¬ w = 0x00EE := by rintro rfl; simp at hc
  unfold execInstr
  simp [hE0, hEE, hc, hnn]

theorem execInstr_Fx33 (ch : Chip) (w : Nat)
    (hc : (w &&& 0xf000) >>> 12 = 0xF) (hnn : w &&& 0x00ff = 0x33) :
    execInstr ch (Instr.new w) =
      some { ch with
        mem :=
          upd (upd (upd ch.mem ch.regs.i (ch.regs.vx (Instr.new w).x / 100))
            (ch.regs.i + 1) (ch.regs.vx (Instr.new w).x / 10 % 10))
            (ch.regs.i + 2) (ch.regs.vx (Instr.new w).x % 10) } := by
  have hE0 : ¬ w = 0x00E0 := by rintro rfl; simp at hc
  have hEE : ¬ w = 0x00EE := by rintro rfl; simp at hc
  unfold execInstr
  simp [hE0, hEE, hc, hnn]

theorem execInstr_Fx55 (ch : Chip) (w : Nat)
    (hc : (w &&& 0xf000) >>> 12 = 0xF) (hnn : w &&& 0x00ff = 0x55) :
    execInstr ch (Instr.new w) = some { ch with
      mem := storeRegs ch.mem ch.regs.vx ch.regs.i (Instr.new w).x,
      regs := { ch.regs with
        i := if ch.profile.op_fx55_store_i then
            (ch.regs.i + (Instr.new w).x + 1) % 65536
          else ch.regs.i } } := by
  have hE0 : ¬ w = 0x00E0 := by rintro rfl; simp at hc
  have hEE : ¬ w = 0x00EE := by rintro rfl; simp at hc
  unfold execInstr
  simp [hE0, hEE, hc, hnn]

theorem execInstr_Fx65 (ch : Chip) (w : Nat)
    (hc : (w &&& 0xf000) >>> 12 = 0xF) (hnn : w &&& 0x00ff = 0x65) :
    execInstr ch (Instr.new w) = some { ch with regs := { ch.regs with
      vx := loadRegs ch.regs.vx ch.mem ch.regs.i (Instr.new w).x,
      i := if ch.profile.op_fx65_store_i then
          (ch.regs.i + (Instr.new w).x + 1) % 65536
        else ch.regs.i } } := by
  have hE0 : ¬ w = 0x00E0 := by rintro rfl; simp at hc
  have hEE : ¬ w = 0x00EE := by rintro rfl; simp at hc
  unfold execInstr
  simp [hE0, hEE, hc, hnn]

theorem execInstr_noneF (ch : Chip) (w : Nat)
    (hc : (w &&& 0xf000) >>> 12 = 0xF)
    (h07 : ¬ w &&& 0x00ff = 0x07) (h0A : ¬ w &&& 0x00ff = 0x0A)
    (h15 : ¬ w &&& 0x00ff = 0x15) (h18 : ¬ w &&& 0x00ff = 0x18)
    (h1E : ¬ w &&& 0x00ff = 0x1E) (h29 : ¬ w &&& 0x00ff = 0x29)
    (h33 : ¬ w &&& 0x00ff = 0x33) (h55 : ¬ w &&& 0x00ff = 0x55)
    (h65 : ¬ w &&& 0x00ff = 0x65) :
    execInstr ch (Instr.new w) = none := by
  have hE0 : ¬ w = 0x00E0 := by rintro rfl; simp at hc
  have hEE : ¬ w = 0x00EE := by rintro rfl; simp at hc
  unfold execInstr
  simp [hE0, hEE, hc, h07, h0A, h15, h18, h1E, h29, h33, h55, h65]

/-! ## Decoded-field bounds -/

theorem instr_c_le (w : Nat) : (w &&& 0xf000) >>> 12 ≤ 15 := by
  have h : w &&& 0xf000 ≤ 0xf000 := Nat.and_le_right
  rw [Nat.shiftRight_eq_div_pow]
  omega

theorem instr_x_le (w : Nat) : (w &&& 0x0f00) >>> 8 ≤ 15 := by
  have h : w &&& 0x0f00 ≤ 0x0f00 := Nat.and_le_right
  rw [Nat.shiftRight_eq_div_pow]
  omega

theorem instr_n_le (w : Nat) : w &&& 0x000f ≤ 15 := Nat.and_le_right

theorem instr_nn_le (w : Nat) : w &&& 0x00ff ≤ 255 := Nat.and_le_right

theorem cycle_def (ch : Chip) :
    cycle ch =
      execInstr { ch with regs := { ch.regs with pc := (ch.regs.pc + 2) % 65536 } }
        (Instr.new (read_u16 ch.mem ch.regs.pc)) := rfl

/-- Dispatch totality: `execInstr` returns `none` exactly on the words
outside the opcode table. -/
theorem execInstr_none_iff (ch : Chip) (w : Nat) :
    execInstr ch (Instr.new w) = none ↔ knownOpcode w = false := by
  have hc16 := instr_c_le w
  have hcases : (w &&& 0xf000) >>> 12 = 0x0 ∨ (w &&& 0xf000) >>> 12 = 0x1 ∨
      (w &&& 0xf000) >>> 12 = 0x2 ∨ (w &&& 0xf000) >>> 12 = 0x3 ∨
      (w &&& 0xf000) >>> 12 = 0x4 ∨ (w &&& 0xf000) >>> 12 = 0x5 ∨
      (w &&& 0xf000) >>> 12 = 0x6 ∨ (w &&& 0xf000) >>> 12 = 0x7 ∨
      (w &&& 0xf000) >>> 12 = 0x8 ∨ (w &&& 0xf000) >>> 12 = 0x9 ∨
      (w &&& 0xf000) >>> 12 = 0xA ∨ (w &&& 0xf000) >>> 12 = 0xB ∨
      (w &&& 0xf000) >>> 12 = 0xC ∨ (w &&& 0xf000) >>> 12 = 0xD ∨
      (w &&& 0xf000) >>> 12 = 0xE ∨ (w &&& 0xf000) >>> 12 = 0xF := by omega
  rcases hcases with hc|hc|hc|hc|hc|hc|hc|hc|hc|hc|hc|hc|hc|hc|hc|hc
  · by_cases hE0 : w = 0x00E0
    · subst hE0; rw [execInstr_00E0]; simp [knownOpcode]
    · by_cases hEE : w = 0x00EE
      · subst hEE; rw [execInstr_00EE]; simp [knownOpcode]
      · rw [execInstr_none0 ch w hc hE0 hEE]
        simp [knownOpcode, hE0, hEE, hc]
  · rw [execInstr_1nnn ch w hc]; simp [knownOpcode, hc]
  · rw [execInstr_2nnn ch w hc]; simp [knownOpcode, hc]
  · rw [execInstr_3xnn ch w hc]; simp [knownOpcode, hc]
  · rw [execInstr_4xnn ch w hc]; simp [knownOpcode, hc]
  · have hE0 : ¬ w = 0x00E0 := by rintro rfl; simp at hc
    have hEE : ¬ w = 0x00EE := by rintro rfl; simp at hc
    by_cases hn : w &&& 0x000f = 0x0
    · rw [execInstr_5xy0 ch w hc hn]; simp [knownOpcode, hc, hn]
    · rw [execInstr_none5 ch w hc hn]; simp [knownOpcode, hc, hn, hE0, hEE]
  · rw [execInstr_6xnn ch w hc]; simp [knownOpcode, hc]
  · rw [execInstr_7xnn ch w hc]; simp [knownOpcode, hc]
  · have hE0 : ¬ w = 0x00E0 := by rintro rfl; simp at hc
    have hEE : ¬ w = 0x00EE := by rintro rfl; simp at hc
    have hn16 := instr_n_le w
    have hncases : w &&& 0x000f = 0x0 ∨ w &&& 0x000f = 0x1 ∨
        w &&& 0x000f = 0x2 ∨ w &&& 0x000f = 0x3 ∨ w &&& 0x000f = 0x4 ∨
        w &&& 0x000f = 0x5 ∨ w &&& 0x000f = 0x6 ∨ w &&& 0x000f = 0x7 ∨
        w &&& 0x000f = 0xE ∨
        (¬ w &&& 0x000f = 0x0 ∧ ¬ w &&& 0x000f = 0x1 ∧
         ¬ w &&& 0x000f = 0x2 ∧ ¬ w &&& 0x000f = 0x3 ∧
         ¬ w &&& 0x000f = 0x4 ∧ ¬ w &&& 0x000f = 0x5 ∧
         ¬ w &&& 0x000f = 0x6 ∧ ¬ w &&& 0x000f = 0x7 ∧
         ¬ w &&& 0x000f = 0xE) := by omega
    rcases hncases with hn|hn|hn|hn|hn|hn|hn|hn|hn|⟨h0,h1,h2,h3,h4,h5,h6,h7,hE⟩
    · rw [execInstr_8xy0 ch w hc hn]; simp [knownOpcode, hc, hn]
    · rw [execInstr_8xy1 ch w hc hn]; simp [knownOpcode, hc, hn]
    · rw [execInstr_8xy2 ch w hc hn]; simp [knownOpcode, hc, hn]
    · rw [execInstr_8xy3 ch w hc hn]; simp [knownOpcode, hc, hn]
    · rw [execInstr_8xy4 ch w hc hn]; simp [knownOpcode, hc, hn]
    · rw [execInstr_8xy5 ch w hc hn]; simp [knownOpcode, hc, hn]
    · rw [execInstr_8xy6 ch w hc hn]; simp [knownOpcode, hc, hn]
    · rw [execInstr_8xy7 ch w hc hn]; simp [knownOpcode, hc, hn]
    · rw [execInstr_8xyE ch w hc hn]; simp [knownOpcode, hc, hn]
    · rw [execInstr_none8 ch w hc h0 h1 h2 h3 h4 h5 h6 h7 hE]
      simp [knownOpcode, hc, h0, h1, h2, h3, h4, h5, h6, h7, hE, hE0, hEE]
  · have hE0 : ¬ w = 0x00E0 := by rintro rfl; simp at hc
    have hEE : ¬ w = 0x00EE := by rintro rfl; simp at hc
    by_cases hn : w &&& 0x000f = 0x0
    · rw [execInstr_9xy0 ch w hc hn]; simp [knownOpcode, hc, hn]
    · rw [execInstr_none9 ch w hc hn]; simp [knownOpcode, hc, hn, hE0, hEE]
  · rw [execInstr_Annn ch w hc]; simp [knownOpcode, hc]
  · rw [execInstr_Bnnn ch w hc]; simp [knownOpcode, hc]
  · rw [execInstr_Cxnn ch w hc]; simp [knownOpcode, hc]
  · rw [execInstr_Dxyn ch w hc]; simp [knownOpcode, hc]
  · have hE0 : ¬ w = 0x00E0 := by rintro rfl; simp at hc
    have hEE : ¬ w = 0x00EE := by rintro rfl; simp at hc
    by_cases h9E : w &&& 0x00ff = 0x9E
    · rw [execInstr_Ex9E ch w hc h9E]; simp [knownOpcode, hc, h9E]
    · by_cases hA1 : w &&& 0x00ff = 0xA1
      · rw [execInstr_ExA1 ch w hc hA1]; simp [knownOpcode, hc, hA1]
      · rw [execInstr_noneE ch w hc h9E hA1]
        simp [knownOpcode, hc, h9E, hA1, hE0, hEE]
  · have hE0 : ¬ w = 0x00E0 := by rintro rfl; simp at hc
    have hEE : ¬ w = 0x00EE := by rintro rfl; simp at hc
    by_cases h07 : w &&& 0x00ff = 0x07
    · rw [execInstr_Fx07 ch w hc h07]; simp [knownOpcode, hc, h07]
    · by_cases h0A : w &&& 0x00ff = 0x0A
      · rw [execInstr_Fx0A ch w hc h0A]; simp [knownOpcode, hc, h0A]
      · by_cases h15 : w &&& 0x00ff = 0x15
        · rw [execInstr_Fx15 ch w hc h15]; simp [knownOpcode, hc, h15]
        · by_cases h18 : w &&& 0x00ff = 0x18
          · rw [execInstr_Fx18 ch w hc h18]; simp [knownOpcode, hc, h18]
          · by_cases h1E : w &&& 0x00ff = 0x1E
            · rw [execInstr_Fx1E ch w hc h1E]; simp [knownOpcode, hc, h1E]
            · by_cases h29 : w &&& 0x00ff = 0x29
              · rw [execInstr_Fx29 ch w hc h29]; simp [knownOpcode, hc, h29]
              · by_cases h33 : w &&& 0x00ff = 0x33
                · rw [execInstr_Fx33 ch w hc h33]; simp [knownOpcode, hc, h33]
                · by_cases h55 : w &&& 0x00ff = 0x55
                  · rw [execInstr_Fx55 ch w hc h55]; simp [knownOpcode, hc, h55]
                  · by_cases h65 : w &&& 0x00ff = 0x65
                    · rw [execInstr_Fx65 ch w hc h65]
                      simp [knownOpcode, hc, h65]
                    · rw [execInstr_noneF ch w hc h07 h0A h15 h18 h1E h29 h33
                        h55 h65]
                      simp [knownOpcode, hc, h07, h0A, h15, h18, h1E, h29, h33,
                        h55, h65, hE0, hEE]

/-! ## Specification of the program-counter behaviour (spec §8, "PC advance") -/

/-- C3: after one successful `cycle` the program counter equals the
spec's classification `pcSpec`: the pre-cycle PC + 2, except that JP,
CALL, RET and Bnnn set it to their computed target, a satisfied skip
leaves PC + 4, and an `Fx0A` with no key pressed leaves it unchanged.
The hypothesis keeps the 16-bit PC increments away from the wrap-around
boundary. -/
theorem cycle_pc_advance (ch ch' : Chip) (hpc : ch.regs.pc + 4 < 65536)
    (h : cycle ch = some ch') : ch'.regs.pc = pcSpec ch := by
  rw [cycle_def] at h
  unfold pcSpec
  set chA : Chip :=
    { ch with regs := { ch.regs with pc := (ch.regs.pc + 2) % 65536 } }
    with hchA
  have hKeys : chA.keys = ch.keys := rfl
  have hVx : chA.regs.vx = ch.regs.vx := rfl
  have hPc : chA.regs.pc = (ch.regs.pc + 2) % 65536 := rfl
  have hStack : chA.stack = ch.stack := rfl
  have hSp : chA.regs.sp = ch.regs.sp := rfl
  generalize hw : read_u16 ch.mem ch.regs.pc = w at h ⊢
  have hc16 := instr_c_le w
  have hcases : (w &&& 0xf000) >>> 12 = 0x0 ∨ (w &&& 0xf000) >>> 12 = 0x1 ∨
      (w &&& 0xf000) >>> 12 = 0x2 ∨ (w &&& 0xf000) >>> 12 = 0x3 ∨
      (w &&& 0xf000) >>> 12 = 0x4 ∨ (w &&& 0xf000) >>> 12 = 0x5 ∨
      (w &&& 0xf000) >>> 12 = 0x6 ∨ (w &&& 0xf000) >>> 12 = 0x7 ∨
      (w &&& 0xf000) >>> 12 = 0x8 ∨ (w &&& 0xf000) >>> 12 = 0x9 ∨
      (w &&& 0xf000) >>> 12 = 0xA ∨ (w &&& 0xf000) >>> 12 = 0xB ∨
      (w &&& 0xf000) >>> 12 = 0xC ∨ (w &&& 0xf000) >>> 12 = 0xD ∨
      (w &&& 0xf000) >>> 12 = 0xE ∨ (w &&& 0xf000) >>> 12 = 0xF := by omega
  rcases hcases with hc|hc|hc|hc|hc|hc|hc|hc|hc|hc|hc|hc|hc|hc|hc|hc
  · by_cases hE0 : w = 0x00E0
    · subst hE0
      rw [execInstr_00E0] at h
      simp only [Option.some.injEq] at h
      subst h
      simp [pcSpecW, skipTaken, hPc]
      omega
    · by_cases hEE : w = 0x00EE
      · subst hEE
        rw [execInstr_00EE] at h
        simp only [Option.some.injEq] at h
        subst h
        simp [pcSpecW, skipTaken, hStack, hSp]
      · rw [execInstr_none0 _ _ hc hE0 hEE] at h
        exact absurd h (by simp)
  · rw [execInstr_1nnn _ _ hc] at h
    simp only [Option.some.injEq] at h
    subst h
    simp [pcSpecW, hc]
  · rw [execInstr_2nnn _ _ hc] at h
    simp only [Option.some.injEq] at h
    subst h
    simp [pcSpecW, hc]
  · have hEE : ¬ w = 0x00EE := by rintro rfl; simp at hc
    rw [execInstr_3xnn _ _ hc] at h
    simp only [Option.some.injEq] at h
    subst h
    by_cases hcond : ch.regs.vx ((w &&& 0x0f00) >>> 8) = w &&& 0x00ff <;>
      simp [hVx, pcSpecW, skipTaken, hc, hcond, hPc, hEE] <;> omega
  · have hEE : ¬ w = 0x00EE := by rintro rfl; simp at hc
    rw [execInstr_4xnn _ _ hc] at h
    simp only [Option.some.injEq] at h
    subst h
    by_cases hcond : ch.regs.vx ((w &&& 0x0f00) >>> 8) = w &&& 0x00ff <;>
      simp [hVx, pcSpecW, skipTaken, hc, hcond, hPc, hEE] <;> omega
  · have hEE : ¬ w = 0x00EE := by rintro rfl; simp at hc
    by_cases hn : w &&& 0x000f = 0x0
    · rw [execInstr_5xy0 _ _ hc hn] at h
      simp only [Option.some.injEq] at h
      subst h
      by_cases hcond : ch.regs.vx ((w &&& 0x0f00) >>> 8) =
          ch.regs.vx ((w &&& 0x00f0) >>> 4) <;>
        simp [hVx, pcSpecW, skipTaken, hc, hn, hcond, hPc, hEE] <;> omega
    · rw [execInstr_none5 _ _ hc hn] at h
      exact absurd h (by simp)
  · have hEE : ¬ w = 0x00EE := by rintro rfl; simp at hc
    rw [execInstr_6xnn _ _ hc] at h
    simp only [Option.some.injEq] at h
    subst h
    simp [pcSpecW, skipTaken, hc, hPc, hEE]
    omega
  · have hEE : ¬ w = 0x00EE := by rintro rfl; simp at hc
    rw [execInstr_7xnn _ _ hc] at h
    simp only [Option.some.injEq] at h
    subst h
    simp [pcSpecW, skipTaken, hc, hPc, hEE]
    omega
  · have hEE : ¬ w = 0x00EE := by rintro rfl; simp at hc
    have hn16 := instr_n_le w
    have hncases : w &&& 0x000f = 0x0 ∨ w &&& 0x000f = 0x1 ∨
        w &&& 0x000f = 0x2 ∨ w &&& 0x000f = 0x3 ∨ w &&& 0x000f = 0x4 ∨
        w &&& 0x000f = 0x5 ∨ w &&& 0x000f = 0x6 ∨ w &&& 0x000f = 0x7 ∨
        w &&& 0x000f = 0xE ∨
        (¬ w &&& 0x000f = 0x0 ∧ ¬ w &&& 0x000f = 0x1 ∧
         ¬ w &&& 0x000f = 0x2 ∧ ¬ w &&& 0x000f = 0x3 ∧
         ¬ w &&& 0x000f = 0x4 ∧ ¬ w &&& 0x000f = 0x5 ∧
         ¬ w &&& 0x000f = 0x6 ∧ ¬ w &&& 0x000f = 0x7 ∧
         ¬ w &&& 0x000f = 0xE) := by omega
    rcases hncases with hn|hn|hn|hn|hn|hn|hn|hn|hn|⟨h0,h1,h2,h3,h4,h5,h6,h7,hE⟩
    · rw [execInstr_8xy0 _ _ hc hn] at h
      simp only [Option.some.injEq] at h
      subst h
      simp [pcSpecW, skipTaken, hc, hn, hPc, hEE]
      omega
    · rw [execInstr_8xy1 _ _ hc hn] at h
      simp only [Option.some.injEq] at h
      subst h
      simp [pcSpecW, skipTaken, hc, hn, hPc, hEE]
      omega
    · rw [execInstr_8xy2 _ _ hc hn] at h
      simp only [Option.some.injEq] at h
      subst h
      simp [pcSpecW, skipTaken, hc, hn, hPc, hEE]
      omega
    · rw [execInstr_8xy3 _ _ hc hn] at h
      simp only [Option.some.injEq] at h
      subst h
      simp [pcSpecW, skipTaken, hc, hn, hPc, hEE]
      omega
    · rw [execInstr_8xy4 _ _ hc hn] at h
      simp only [Option.some.injEq] at h
      subst h
      simp [pcSpecW, skipTaken, hc, hn, hPc, hEE]
      omega
    · rw [execInstr_8xy5 _ _ hc hn] at h
      simp only [Option.some.injEq] at h
      subst h
      simp [pcSpecW, skipTaken, hc, hn, hPc, hEE]
      omega
    · rw [execInstr_8xy6 _ _ hc hn] at h
      simp only [Option.some.injEq] at h
      subst h
      simp [pcSpecW, skipTaken, hc, hn, hPc, hEE]
      omega
    · rw [execInstr_8xy7 _ _ hc hn] at h
      simp only [Option.some.injEq] at h
      subst h
      simp [pcSpecW, skipTaken, hc, hn, hPc, hEE]
      omega
    · rw [execInstr_8xyE _ _ hc hn] at h
      simp only [Option.some.injEq] at h
      subst h
      simp [pcSpecW, skipTaken, hc, hn, hPc, hEE]
      omega
    · rw [execInstr_none8 _ _ hc h0 h1 h2 h3 h4 h5 h6 h7 hE] at h
      exact absurd h (by simp)
  · have hEE : ¬ w = 0x00EE := by rintro rfl; simp at hc
    by_cases hn : w &&& 0x000f = 0x0
    · rw [execInstr_9xy0 _ _ hc hn] at h
      simp only [Option.some.injEq] at h
      subst h
      by_cases hcond : ch.regs.vx ((w &&& 0x0f00) >>> 8) =
          ch.regs.vx ((w &&& 0x00f0) >>> 4) <;>
        simp [hVx, pcSpecW, skipTaken, hc, hn, hcond, hPc, hEE] <;> omega
    · rw [execInstr_none9 _ _ hc hn] at h
      exact absurd h (by simp)
  · have hEE : ¬ w = 0x00EE := by rintro rfl; simp at hc
    rw [execInstr_Annn _ _ hc] at h
    simp only [Option.some.injEq] at h
    subst h
    simp [pcSpecW, skipTaken, hc, hPc, hEE]
    omega
  · have hEE : ¬ w = 0x00EE := by rintro rfl; simp at hc
    rw [execInstr_Bnnn _ _ hc] at h
    simp only [Option.some.injEq] at h
    subst h
    simp [pcSpecW, skipTaken, hc, hVx, hEE]
  · have hEE : ¬ w = 0x00EE := by rintro rfl; simp at hc
    rw [execInstr_Cxnn _ _ hc] at h
    simp only [Option.some.injEq] at h
    subst h
    simp [pcSpecW, skipTaken, hc, hPc, hEE]
    omega
  · have hEE : ¬ w = 0x00EE := by rintro rfl; simp at hc
    rw [execInstr_Dxyn _ _ hc] at h
    simp only [Option.some.injEq] at h
    subst h
    simp [pcSpecW, skipTaken, hc, hPc, hEE]
    omega
  · have hEE : ¬ w = 0x00EE := by rintro rfl; simp at hc
    by_cases h9E : w &&& 0x00ff = 0x9E
    · rw [execInstr_Ex9E _ _ hc h9E] at h
      simp only [Option.some.injEq] at h
      subst h
      by_cases hcond : ch.keys (ch.regs.vx ((w &&& 0x0f00) >>> 8)) = true <;>
        simp [hKeys, hVx, pcSpecW, skipTaken, hc, h9E, hcond, hPc, hEE] <;> omega
    · by_cases hA1 : w &&& 0x00ff = 0xA1
      · rw [execInstr_ExA1 _ _ hc hA1] at h
        simp only [Option.some.injEq] at h
        subst h
        by_cases hcond : ch.keys (ch.regs.vx ((w &&& 0x0f00) >>> 8)) = true <;>
          simp [hKeys, hVx, pcSpecW, skipTaken, hc, h9E, hA1, hcond, hPc, hEE] <;>
            omega
      · rw [execInstr_noneE _ _ hc h9E hA1] at h
        exact absurd h (by simp)
  · have hEE : ¬ w = 0x00EE := by rintro rfl; simp at hc
    by_cases h07 : w &&& 0x00ff = 0x07
    · rw [execInstr_Fx07 _ _ hc h07] at h
      simp only [Option.some.injEq] at h
      subst h
      simp [pcSpecW, skipTaken, hc, h07, hPc, hEE]
      omega
    · by_cases h0A : w &&& 0x00ff = 0x0A
      · rw [execInstr_Fx0A _ _ hc h0A] at h
        simp only [Option.some.injEq] at h
        subst h
        rw [hKeys]
        cases hk : keyPosition ch.keys with
        | none =>
          simp [pcSpecW, skipTaken, hc, h0A, hPc, hEE, hk, sub16]
          omega
        | some k =>
          simp [pcSpecW, skipTaken, hc, h0A, hPc, hEE, hk]
          omega
      · by_cases h15 : w &&& 0x00ff = 0x15
        · rw [execInstr_Fx15 _ _ hc h15] at h
          simp only [Option.some.injEq] at h
          subst h
          simp [pcSpecW, skipTaken, hc, h15, hPc, hEE]
          omega
        · by_cases h18 : w &&& 0x00ff = 0x18
          · rw [execInstr_Fx18 _ _ hc h18] at h
            simp only [Option.some.injEq] at h
            subst h
            simp [pcSpecW, skipTaken, hc, h18, hPc, hEE]
            omega
          · by_cases h1E : w &&& 0x00ff = 0x1E
            · rw [execInstr_Fx1E _ _ hc h1E] at h
              simp only [Option.some.injEq] at h
              subst h
              simp [pcSpecW, skipTaken, hc, h1E, hPc, hEE]
              omega
            · by_cases h29 : w &&& 0x00ff = 0x29
              · rw [execInstr_Fx29 _ _ hc h29] at h
                simp only [Option.some.injEq] at h
                subst h
                simp [pcSpecW, skipTaken, hc, h29, hPc, hEE]
                omega
              · by_cases h33 : w &&& 0x00ff = 0x33
                · rw [execInstr_Fx33 _ _ hc h33] at h
                  simp only [Option.some.injEq] at h
                  subst h
                  simp [pcSpecW, skipTaken, hc, h33, hPc, hEE]
                  omega
                · by_cases h55 : w &&& 0x00ff = 0x55
                  · rw [execInstr_Fx55 _ _ hc h55] at h
                    simp only [Option.some.injEq] at h
                    subst h
                    simp [pcSpecW, skipTaken, hc, h55, hPc, hEE]
                    omega
                  · by_cases h65 : w &&& 0x00ff = 0x65
                    · rw [execInstr_Fx65 _ _ hc h65] at h
                      simp only [Option.some.injEq] at h
                      subst h
                      simp [pcSpecW, skipTaken, hc, h65, hPc, hEE]
                      omega
                    · rw [execInstr_noneF _ _ hc h07 h0A h15 h18 h1E h29 h33
                        h55 h65] at h
                      exact absurd h (by simp)

/-! ## Generic update and loop lemmas -/

theorem upd_same (f : Nat → Nat) (i v : Nat) : upd f i v i = v := by
  simp [upd]

theorem upd_ne (f : Nat → Nat) (i v j : Nat) (h : j ≠ i) : upd f i v j = f j := by
  simp [upd, h]

theorem foldl_upd_notin (addr val : Nat → Nat) :
    ∀ (l : List Nat) (m0 : Nat → Nat) (a : Nat), (∀ k ∈ l, addr k ≠ a) →
    (l.foldl (fun m k => upd m (addr k) (val k)) m0) a = m0 a := by
  intro l
  induction l with
  | nil => intro m0 a _; rfl
  | cons x rest ih =>
    intro m0 a hne
    rw [List.foldl_cons]
    rw [ih (upd m0 (addr x) (val x)) a fun k hk => hne k (List.mem_cons_of_mem _ hk)]
    exact upd_ne _ _ _ _ fun hax => hne x (List.mem_cons_self x rest) (hax ▸ rfl)

theorem storeRegs_outside (mem vx : Nat → Nat) (base x a : Nat)
    (h : a < base ∨ base + x < a) : storeRegs mem vx base x a = mem a := by
  unfold storeRegs
  exact foldl_upd_notin (fun k => base + k) vx _ mem a fun k hk => by
    have hk' := List.mem_range.1 hk
    show base + k ≠ a
    rcases h with h | h <;> omega

theorem loadRegs_above (vx mem : Nat → Nat) (base x j : Nat)
    (h : x < j) : loadRegs vx mem base x j = vx j := by
  unfold loadRegs
  exact foldl_upd_notin (fun k => k) (fun k => mem (base + k)) _ vx j
    fun k hk => by
      have hk' := List.mem_range.1 hk
      show k ≠ j
      omega

/-! ## First-pressed-key lemmas -/

theorem find?_range'_spec (p : Nat → Bool) :
    ∀ (n s k : Nat), (List.range' s n).find? p = some k →
      p k = true ∧ s ≤ k ∧ ∀ j, s ≤ j → j < k → p j = false := by
  intro n
  induction n with
  | zero => intro s k h; simp at h
  | succ m ih =>
    intro s k h
    rw [List.range'_succ s m 1] at h
    cases hp : p s with
    | true =>
      rw [List.find?_cons_of_pos _ hp] at h
      have hk : s = k := by simpa using h
      subst hk
      exact ⟨hp, le_refl s, fun j h1 h2 => by omega⟩
    | false =>
      rw [List.find?_cons_of_neg _ (by simp [hp])] at h
      obtain ⟨h1, h2, h3⟩ := ih (s + 1) k h
      refine ⟨h1, by omega, fun j hj1 hj2 => ?_⟩
      by_cases hjs : j = s
      · subst hjs; exact hp
      · exact h3 j (by omega) hj2

theorem keyPosition_some (keys : Nat → Bool) (k : Nat)
    (h : keyPosition keys = some k) :
    keys k = true ∧ k < 16 ∧ ∀ j, j < k → keys j = false := by
  unfold keyPosition at h
  rw [List.range_eq_range' 16] at h
  obtain ⟨h1, _, h3⟩ := find?_range'_spec _ 16 0 k h
  have hmem := List.mem_of_find?_eq_some h
  have hk16 := (List.mem_range'_1.1 hmem).2
  exact ⟨h1, by omega, fun j hj => h3 j (Nat.zero_le j) hj⟩

theorem keyPosition_none (keys : Nat → Bool)
    (h : keyPosition keys = none) : ∀ j, j < 16 → keys j = false := by
  intro j hj
  unfold keyPosition at h
  have := List.find?_eq_none.1 h j (List.mem_range.2 hj)
  simpa using this

/-! ## Byte extraction and ROM loading lemmas -/

theorem and_shiftRight_distrib (x y n : Nat) :
    (x &&& y) >>> n = (x >>> n) &&& (y >>> n) :=
  Nat.eq_of_testBit_eq (by
    intro i
    simp [Nat.testBit_shiftRight, Nat.testBit_and])

theorem hi_byte (b0 b1 : Nat) (h0 : b0 < 256) (h1 : b1 < 256) :
    ((256 * b0 + b1) &&& 0xff00) >>> 8 = b0 := by
  rw [and_shiftRight_distrib]
  have he : (0xff00 : Nat) >>> 8 = 2 ^ 8 - 1 := by decide
  rw [he, Nat.and_pow_two_sub_one_eq_mod, Nat.shiftRight_eq_div_pow]
  omega

theorem lo_byte (b0 b1 : Nat) (h1 : b1 < 256) :
    (256 * b0 + b1) &&& 0xff = b1 := by
  have he : (0xff : Nat) = 2 ^ 8 - 1 := by decide
  rw [he, Nat.and_pow_two_sub_one_eq_mod]
  omega

theorem load_block_u16_outside :
    ∀ (code : List Nat) (mem : Nat → Nat) (addr a : Nat),
    a < addr ∨ addr + 2 * code.length ≤ a →
    load_block_u16 mem addr code a = mem a := by
  intro code
  induction code with
  | nil => intro mem addr a _; rfl
  | cons op rest ih =>
    intro mem addr a hout
    rw [load_block_u16]
    rw [ih (write_u16 mem addr op) (addr + 2) a (by
      simp only [List.length_cons] at hout ⊢
      omega)]
    unfold write_u16
    rw [upd_ne _ _ _ _ (by simp only [List.length_cons] at hout; omega),
      upd_ne _ _ _ _ (by simp only [List.length_cons] at hout; omega)]

theorem load_block_u16_at :
    ∀ (code : List Nat) (mem : Nat → Nat) (addr k : Nat), k < code.length →
    load_block_u16 mem addr code (addr + 2 * k) =
      ((code.getD k 0) &&& 0xff00) >>> 8 ∧
    load_block_u16 mem addr code (addr + 2 * k + 1) = (code.getD k 0) &&& 0xff := by
  intro code
  induction code with
  | nil => intro mem addr k h; simp at h
  | cons op rest ih =>
    intro mem addr k hk
    cases k with
    | zero =>
      rw [load_block_u16]
      have ha0 : addr + 2 * 0 = addr := by omega
      have ha1 : addr + 2 * 0 + 1 = addr + 1 := by omega
      rw [ha0, ha1]
      constructor
      · rw [load_block_u16_outside rest _ (addr + 2) _ (by omega)]
        unfold write_u16
        rw [upd_ne _ _ _ _ (by omega), upd_same]
        rfl
      · rw [load_block_u16_outside rest _ (addr + 2) _ (by omega)]
        unfold write_u16
        rw [upd_same]
        rfl
    | succ j =>
      rw [load_block_u16]
      have hj : j < rest.length := by
        simp only [List.length_cons] at hk; omega
      have h1 := ih (write_u16 mem addr op) (addr + 2) j hj
      have ha : addr + 2 * (j + 1) = addr + 2 + 2 * j := by omega
      rw [ha]
      exact h1

theorem range_map_getD (f : Nat → Nat) (n k : Nat) (h : k < n) :
    ((List.range n).map f).getD k 0 = f k := by
  rw [List.getD_eq_getElem?_getD, List.getElem?_map, List.getElem?_range h]
  rfl

/-! ## Claim theorems -/

/-- C1: the collision result of `draw_sprite` is NOT OR-accumulated: at
the failing input (framebuffer with only pixel (0,0) lit, sprite byte
`0xC0` drawn at (0,0)) the cell (0,0) is 1 before the draw and is erased
by it, yet the returned collision flag is `false`, because the later
flipped cell (0,1) — whose prior state was 0 — overwrote the flag.  The
claim requires the flag to be `true` whenever ANY flipped cell was 1
immediately before its flip. -/
theorem draw_collision_overwritten :
    frameC1 0 0 = 1 ∧
    (draw_sprite frameC1 [0xC0] 0 0).1 0 0 = 0 ∧
    (draw_sprite frameC1 [0xC0] 0 0).1 0 1 = 1 ∧
    (draw_sprite frameC1 [0xC0] 0 0).2 = false := by
  refine ⟨by decide, by decide, by decide, by decide⟩

/-- C5: `draw_sprite` wraps its start coordinates modulo the framebuffer
dimensions; once drawing has started, rows stop at the display height
(drawing only the first `height - start_y` sprite bytes) and the columns
of a row stop at the display width (processing exactly the maximal
prefix of bit offsets that lie inside the display). -/
theorem draw_sprite_wrap_clip :
    (∀ (frame : Frame) (sprite : List Nat) (x y : Nat),
      draw_sprite frame sprite x y =
        draw_sprite frame sprite (x % DISPLAY_WIDTH) (y % DISPLAY_HEIGHT)) ∧
    (∀ (frame : Frame) (sprite : List Nat) (x y : Nat),
      draw_sprite frame sprite x y =
        draw_sprite frame (sprite.take (DISPLAY_HEIGHT - y % DISPLAY_HEIGHT)) x y) ∧
    (∀ (frame : Frame) (col : Bool) (s start_x frame_y : Nat) (xs : List Nat),
      drawBits frame col s start_x frame_y xs =
        drawBits frame col s start_x frame_y
          (xs.takeWhile fun b => decide (start_x + b < DISPLAY_WIDTH))) := by
  refine ⟨fun frame sprite x y => ?_, fun frame sprite x y => ?_,
    fun frame col s start_x frame_y xs => ?_⟩
  · unfold draw_sprite
    have h1 : x % DISPLAY_WIDTH % DISPLAY_WIDTH = x % DISPLAY_WIDTH := by
      unfold DISPLAY_WIDTH; omega
    have h2 : y % DISPLAY_HEIGHT % DISPLAY_HEIGHT = y % DISPLAY_HEIGHT := by
      unfold DISPLAY_HEIGHT; omega
    rw [h1, h2]
  · unfold draw_sprite
    have h := drawRows_take (x % DISPLAY_WIDTH) (y % DISPLAY_HEIGHT) sprite 0
      frame false
    rw [h, Nat.sub_zero]
  · exact drawBits_takeWhile s start_x frame_y xs frame col

/-- C6: drawing the identical sprite at the identical position twice in
immediate succession restores the framebuffer (XOR involution); every
cell value of a real framebuffer is a `u32`, hence below `2^32`. -/
theorem draw_sprite_involution (frame : Frame) (sprite : List Nat) (x y : Nat)
    (h : ∀ r c, frame r c < 4294967296) :
    (draw_sprite (draw_sprite frame sprite x y).1 sprite x y).1 = frame := by
  funext r c
  unfold draw_sprite
  rw [drawRows_fst, drawRows_fst]
  cases hf : flipped sprite (x % DISPLAY_WIDTH) (y % DISPLAY_HEIGHT) 0 r c with
  | true => simp [sub32_sub32 _ (h r c)]
  | false => simp

/-- C6 witness: the involution at the spec's 3×8 example sprite on the
empty framebuffer. -/
theorem draw_sprite_involution_witness :
    (draw_sprite (draw_sprite (fun _ _ => 0) [0xE7, 0xAA, 0x81] 0 0).1
      [0xE7, 0xAA, 0x81] 0 0).1 = (fun _ _ => 0 : Frame) :=
  draw_sprite_involution (fun _ _ => 0) [0xE7, 0xAA, 0x81] 0 0
    (fun _ _ => by norm_num)

/-- C9: `cycle` fails with the unknown-opcode error (modelled as `none`)
exactly on the words whose decoded (class, discriminant) combination
matches no row of the opcode table, and succeeds on every word that
matches one. -/
theorem unknown_opcode_fatal (ch : Chip) :
    cycle ch = none ↔ knownOpcode (read_u16 ch.mem ch.regs.pc) = false := by
  rw [cycle_def]
  exact execInstr_none_iff _ _

/-- C3 witness: the JP instruction at `chipC3` lands on the spec's
classification. -/
theorem cycle_pc_advance_witness :
    ((cycle chipC3).map fun c => c.regs.pc) = some (pcSpec chipC3) := by
  cases hcy : cycle chipC3 with
  | none => exact absurd (congrArg Option.isSome hcy) (by decide)
  | some c =>
    rw [Option.map_some']
    exact congrArg some (cycle_pc_advance chipC3 c (by decide) hcy)

/-- C2 counterexample: executing `0x8FF6` (SHR with destination VF) under
the modern profile from `chipC2` (pre-shift VF = 1) leaves VF = 0, even
though the bit shifted out of the pre-shift value is 1 — the flag write
is not last; the subsequent shift of Vx targets VF itself. -/
theorem vf_flag_cex :
    ((cycle chipC2).map fun c => c.regs.vx 0xF) = some 0 ∧
    chipC2.regs.vx 0xF &&& 0x01 = 1 :=
  ⟨by decide, by decide⟩

/-- C2 (amended): after 8xy4, 8xy5, 8xy7 and Dxyn the flag register VF
holds the carry / not-borrow / collision flag computed from the pre-state,
for every destination x including 0xF.  The shifts 8xy6 and 8xyE write
the flag BEFORE shifting Vx, so VF holds the shifted-out bit whenever
x ≠ 0xF; when x = 0xF the final shift targets VF itself, leaving 0 for
SHR and twice the flag for SHL. -/
theorem vf_flag_semantics (ch ch' : Chip) (w : Nat)
    (hw : read_u16 ch.mem ch.regs.pc = w)
    (hsome : cycle ch = some ch') :
    ((w &&& 0xf000) >>> 12 = 0x8 → w &&& 0x000f = 0x4 →
      ch'.regs.vx 0xF =
        if 256 ≤ ch.regs.vx (Instr.new w).x + ch.regs.vx (Instr.new w).y
        then 1 else 0) ∧
    ((w &&& 0xf000) >>> 12 = 0x8 → w &&& 0x000f = 0x5 →
      ch'.regs.vx 0xF =
        if ch.regs.vx (Instr.new w).x < ch.regs.vx (Instr.new w).y
        then 0 else 1) ∧
    ((w &&& 0xf000) >>> 12 = 0x8 → w &&& 0x000f = 0x7 →
      ch'.regs.vx 0xF =
        if ch.regs.vx (Instr.new w).y < ch.regs.vx (Instr.new w).x
        then 0 else 1) ∧
    ((w &&& 0xf000) >>> 12 = 0xD →
      ch'.regs.vx 0xF =
        if (draw_sprite ch.frame
            ((List.range (Instr.new w).n).map fun k => ch.mem (ch.regs.i + k))
            (ch.regs.vx (Instr.new w).x) (ch.regs.vx (Instr.new w).y)).2
        then 1 else 0) ∧
    ((w &&& 0xf000) >>> 12 = 0x8 → w &&& 0x000f = 0x6 →
      (Instr.new w).x ≠ 0xF →
      ch'.regs.vx 0xF =
        (if ch.profile.op_8xy6_use_vy then ch.regs.vx (Instr.new w).y
         else ch.regs.vx (Instr.new w).x) &&& 0x01) ∧
    ((w &&& 0xf000) >>> 12 = 0x8 → w &&& 0x000f = 0x6 →
      (Instr.new w).x = 0xF → ch'.regs.vx 0xF = 0) ∧
    ((w &&& 0xf000) >>> 12 = 0x8 → w &&& 0x000f = 0xE →
      (Instr.new w).x ≠ 0xF →
      ch'.regs.vx 0xF =
        (if (if ch.profile.op_8xye_use_vy then ch.regs.vx (Instr.new w).y
             else ch.regs.vx (Instr.new w).x) &&& 0x80 ≠ 0 then 1 else 0)) ∧
    ((w &&& 0xf000) >>> 12 = 0x8 → w &&& 0x000f = 0xE →
      (Instr.new w).x = 0xF →
      ch'.regs.vx 0xF =
        (if (if ch.profile.op_8xye_use_vy then ch.regs.vx (Instr.new w).y
             else ch.regs.vx (Instr.new w).x) &&& 0x80 ≠ 0 then 2 else 0)) := by
  refine ⟨?_, ?_, ?_, ?_, ?_, ?_, ?_, ?_⟩
  · intro hc hn
    have h := hsome
    rw [cycle_def, hw, execInstr_8xy4 _ _ hc hn] at h
    simp only [Option.some.injEq] at h
    subst h
    simp [upd]
  · intro hc hn
    have h := hsome
    rw [cycle_def, hw, execInstr_8xy5 _ _ hc hn] at h
    simp only [Option.some.injEq] at h
    subst h
    simp [upd]
  · intro hc hn
    have h := hsome
    rw [cycle_def, hw, execInstr_8xy7 _ _ hc hn] at h
    simp only [Option.some.injEq] at h
    subst h
    simp [upd]
  · intro hc
    have h := hsome
    rw [cycle_def, hw, execInstr_Dxyn _ _ hc] at h
    simp only [Option.some.injEq] at h
    subst h
    simp [upd]
  · intro hc hn hx
    simp only [Instr.x_new] at hx
    have h := hsome
    rw [cycle_def, hw, execInstr_8xy6 _ _ hc hn] at h
    simp only [Option.some.injEq] at h
    subst h
    simp only []
    by_cases hp : ch.profile.op_8xy6_use_vy <;>
      simp [upd, hp, Ne.symm hx]
  · intro hc hn hx
    simp only [Instr.x_new] at hx
    have h := hsome
    rw [cycle_def, hw, execInstr_8xy6 _ _ hc hn] at h
    simp only [Option.some.injEq] at h
    subst h
    by_cases hp : ch.profile.op_8xy6_use_vy <;>
      simp [upd, hp, hx, Nat.and_one_is_mod, Nat.shiftRight_eq_div_pow]
  · intro hc hn hx
    simp only [Instr.x_new] at hx
    have h := hsome
    rw [cycle_def, hw, execInstr_8xyE _ _ hc hn] at h
    simp only [Option.some.injEq] at h
    subst h
    by_cases hp : ch.profile.op_8xye_use_vy <;>
      simp [upd, hp, Ne.symm hx]
  · intro hc hn hx
    simp only [Instr.x_new] at hx
    have h := hsome
    rw [cycle_def, hw, execInstr_8xyE _ _ hc hn] at h
    simp only [Option.some.injEq] at h
    subst h
    by_cases hp : ch.profile.op_8xye_use_vy <;>
      · simp [upd, hp, hx]
        split_ifs <;> simp

/-- C2 witness: the amended flag rule applied to the `0x8FF6` state. -/
theorem vf_flag_witness :
    ((cycle chipC2).map fun c => c.regs.vx 0xF) = some 0 := by
  cases hcy : cycle chipC2 with
  | none => exact absurd (congrArg Option.isSome hcy) (by decide)
  | some c =>
    have h := (vf_flag_semantics chipC2 c 0x8FF6 (by decide) hcy).2.2.2.2.2.1
      (by decide) (by decide) (by decide)
    rw [Option.map_some']
    exact congrArg some h

/-- C4 counterexample: the claim "two executions that differ only in the
value of Vy produce identical post-states" is false as stated: `chipC4`
and `chipC4'` differ only in V3 (= Vy of the fetched `0x8236`, with the
modern profile, y ≠ x), but Vy keeps its respective initial value across
the shift, so the post-states differ at register 3. -/
theorem shr_noninterference_cex :
    read_u16 chipC4.mem chipC4.regs.pc = 0x8236 ∧
    chipC4.profile.op_8xy6_use_vy = false ∧
    chipC4.regs.vx 3 = 0 ∧ chipC4'.regs.vx 3 = 1 ∧
    ((cycle chipC4).map fun c => c.regs.vx 3) = some 0 ∧
    ((cycle chipC4').map fun c => c.regs.vx 3) = some 1 ∧
    cycle chipC4 ≠ cycle chipC4' := by
  refine ⟨by decide, by decide, by decide, by decide, by decide, by decide,
    fun h => ?_⟩
  have h2 := congrArg (Option.map fun c => c.regs.vx 3) h
  rw [(by decide : ((cycle chipC4).map fun c => c.regs.vx 3) = some 0),
    (by decide : ((cycle chipC4').map fun c => c.regs.vx 3) = some 1)] at h2
  exact absurd h2 (by decide)

/-- C4 (amended): with the copy toggle on, 8xy6/8xyE first overwrite Vx
with Vy, then write VF from the copied (pre-shift) value, then shift Vx —
the exact write sequence of the source.  With the toggle off, Vy is never
read: two executions from states that agree everywhere except at register
y produce post-states that agree everywhere except that register y keeps
its respective initial value. -/
theorem shift_quirk_semantics (ch ch' : Chip) (w : Nat)
    (hw : read_u16 ch.mem ch.regs.pc = w)
    (hc : (w &&& 0xf000) >>> 12 = 0x8)
    (hsome : cycle ch = some ch') :
    (w &&& 0x000f = 0x6 → ch.profile.op_8xy6_use_vy = true →
      ch'.regs.vx =
        (let v1 := upd ch.regs.vx (Instr.new w).x (ch.regs.vx (Instr.new w).y)
         let v2 := upd v1 0xF (v1 (Instr.new w).x &&& 0x01)
         upd v2 (Instr.new w).x (v2 (Instr.new w).x >>> 1))) ∧
    (w &&& 0x000f = 0xE → ch.profile.op_8xye_use_vy = true →
      ch'.regs.vx =
        (let v1 := upd ch.regs.vx (Instr.new w).x (ch.regs.vx (Instr.new w).y)
         let v2 := upd v1 0xF (if v1 (Instr.new w).x &&& 0x80 ≠ 0 then 1 else 0)
         upd v2 (Instr.new w).x ((v2 (Instr.new w).x <<< 1) % 256))) ∧
    (∀ (v : Nat) (s2 ch2 : Chip),
      w &&& 0x000f = 0x6 → ch.profile.op_8xy6_use_vy = false →
      (Instr.new w).y ≠ (Instr.new w).x →
      s2.mem = ch.mem → s2.sprite_addr = ch.sprite_addr →
      s2.stack = ch.stack → s2.keys = ch.keys → s2.frame = ch.frame →
      s2.rndSeq = ch.rndSeq → s2.rndIdx = ch.rndIdx →
      s2.profile = ch.profile →
      s2.regs.dt = ch.regs.dt → s2.regs.st = ch.regs.st →
      s2.regs.i = ch.regs.i → s2.regs.pc = ch.regs.pc →
      s2.regs.sp = ch.regs.sp →
      s2.regs.vx = upd ch.regs.vx (Instr.new w).y v →
      cycle s2 = some ch2 →
      (∀ j, j ≠ (Instr.new w).y → ch2.regs.vx j = ch'.regs.vx j) ∧
      ch2.regs.pc = ch'.regs.pc ∧ ch2.regs.i = ch'.regs.i ∧
      ch2.regs.dt = ch'.regs.dt ∧ ch2.regs.st = ch'.regs.st ∧
      ch2.regs.sp = ch'.regs.sp ∧ ch2.mem = ch'.mem ∧
      ch2.frame = ch'.frame ∧ ch2.stack = ch'.stack ∧
      ch2.keys = ch'.keys) ∧
    (∀ (v : Nat) (s2 ch2 : Chip),
      w &&& 0x000f = 0xE → ch.profile.op_8xye_use_vy = false →
      (Instr.new w).y ≠ (Instr.new w).x →
      s2.mem = ch.mem → s2.sprite_addr = ch.sprite_addr →
      s2.stack = ch.stack → s2.keys = ch.keys → s2.frame = ch.frame →
      s2.rndSeq = ch.rndSeq → s2.rndIdx = ch.rndIdx →
      s2.profile = ch.profile →
      s2.regs.dt = ch.regs.dt → s2.regs.st = ch.regs.st →
      s2.regs.i = ch.regs.i → s2.regs.pc = ch.regs.pc →
      s2.regs.sp = ch.regs.sp →
      s2.regs.vx = upd ch.regs.vx (Instr.new w).y v →
      cycle s2 = some ch2 →
      (∀ j, j ≠ (Instr.new w).y → ch2.regs.vx j = ch'.regs.vx j) ∧
      ch2.regs.pc = ch'.regs.pc ∧ ch2.regs.i = ch'.regs.i ∧
      ch2.regs.dt = ch'.regs.dt ∧ ch2.regs.st = ch'.regs.st ∧
      ch2.regs.sp = ch'.regs.sp ∧ ch2.mem = ch'.mem ∧
      ch2.frame = ch'.frame ∧ ch2.stack = ch'.stack ∧
      ch2.keys = ch'.keys) := by
  refine ⟨?_, ?_, ?_, ?_⟩
  · intro hn htog
    have h := hsome
    rw [cycle_def, hw, execInstr_8xy6 _ _ hc hn] at h
    simp only [Option.some.injEq] at h
    subst h
    simp [htog]
  · intro hn htog
    have h := hsome
    rw [cycle_def, hw, execInstr_8xyE _ _ hc hn] at h
    simp only [Option.some.injEq] at h
    subst h
    simp [htog]
  · intro v s2 ch2 hn htog hyx hmem hsa hstk hkeys hfr hrs hri hprof hdt hst
      hi hpc2 hsp hvx2 h2
    simp only [Instr.x_new, Instr.y_new] at hyx ⊢
    have h := hsome
    rw [cycle_def, hw, execInstr_8xy6 _ _ hc hn] at h
    simp only [Option.some.injEq] at h
    subst h
    rw [cycle_def, hmem, hpc2, hw, execInstr_8xy6 _ _ hc hn] at h2
    simp only [Option.some.injEq] at h2
    subst h2
    refine ⟨?_, by simp [hpc2], by simp [hi], by simp [hdt], by simp [hst],
      by simp [hsp], by simp [hmem], by simp [hfr], by simp [hstk],
      by simp [hkeys]⟩
    intro j hj
    have hxy' : ¬((w &&& 0x0f00) >>> 8 = (w &&& 0x00f0) >>> 4) :=
      fun hh => hyx hh.symm
    simp only [Instr.x_new, hprof, htog, hvx2, Instr.y_new]
    simp only [upd]
    by_cases hjx : j = (w &&& 0x0f00) >>> 8 <;>
      by_cases hjF : j = 0xF <;>
      simp_all [upd]
  · intro v s2 ch2 hn htog hyx hmem hsa hstk hkeys hfr hrs hri hprof hdt hst
      hi hpc2 hsp hvx2 h2
    simp only [Instr.x_new, Instr.y_new] at hyx ⊢
    have h := hsome
    rw [cycle_def, hw, execInstr_8xyE _ _ hc hn] at h
    simp only [Option.some.injEq] at h
    subst h
    rw [cycle_def, hmem, hpc2, hw, execInstr_8xyE _ _ hc hn] at h2
    simp only [Option.some.injEq] at h2
    subst h2
    refine ⟨?_, by simp [hpc2], by simp [hi], by simp [hdt], by simp [hst],
      by simp [hsp], by simp [hmem], by simp [hfr], by simp [hstk],
      by simp [hkeys]⟩
    intro j hj
    have hxy' : ¬((w &&& 0x0f00) >>> 8 = (w &&& 0x00f0) >>> 4) :=
      fun hh => hyx hh.symm
    simp only [Instr.x_new, hprof, htog, hvx2, Instr.y_new]
    simp only [upd]
    by_cases hjx : j = (w &&& 0x0f00) >>> 8 <;>
      by_cases hjF : j = 0xF <;>
      simp_all [upd]

/-- C4 witness: the Vx output of the modern SHR is independent of the
initial Vy. -/
theorem shift_quirk_witness :
    ((cycle chipC4').map fun c => c.regs.vx 2) =
      ((cycle chipC4).map fun c => c.regs.vx 2) := by
  cases h1 : cycle chipC4 with
  | none => exact absurd (congrArg Option.isSome h1) (by decide)
  | some c1 =>
    cases h2 : cycle chipC4' with
    | none => exact absurd (congrArg Option.isSome h2) (by decide)
    | some c2 =>
      have h := (shift_quirk_semantics chipC4 c1 0x8236 (by decide) (by decide)
          h1).2.2.1 1 chipC4' c2 (by decide) (by decide) (by decide) rfl rfl
          rfl rfl rfl rfl rfl rfl rfl rfl rfl rfl rfl (by rfl) h2
      rw [Option.map_some', Option.map_some', h.1 2 (by decide)]

/-- C7: after `Fx55` the index register I has advanced by x+1 exactly
when the store toggle is on (otherwise unchanged), memory outside
[I, I+x] is untouched and no register changes; after `Fx65` I behaves
the same way under the load toggle, registers above Vx are untouched and
memory is unchanged.  The hypothesis keeps I + x + 1 inside 16 bits. -/
theorem fx55_fx65_effects (ch ch' : Chip) (w : Nat)
    (hw : read_u16 ch.mem ch.regs.pc = w)
    (hc : (w &&& 0xf000) >>> 12 = 0xF)
    (hI : ch.regs.i + 16 < 65536)
    (hsome : cycle ch = some ch') :
    (w &&& 0x00ff = 0x55 →
      (ch'.regs.i = if ch.profile.op_fx55_store_i then
          ch.regs.i + (Instr.new w).x + 1 else ch.regs.i) ∧
      (∀ a, a < ch.regs.i ∨ ch.regs.i + (Instr.new w).x < a →
        ch'.mem a = ch.mem a) ∧
      ch'.regs.vx = ch.regs.vx) ∧
    (w &&& 0x00ff = 0x65 →
      (ch'.regs.i = if ch.profile.op_fx65_store_i then
          ch.regs.i + (Instr.new w).x + 1 else ch.regs.i) ∧
      (∀ j, (Instr.new w).x < j → ch'.regs.vx j = ch.regs.vx j) ∧
      ch'.mem = ch.mem) := by
  constructor
  · intro hnn
    have h := hsome
    rw [cycle_def, hw, execInstr_Fx55 _ _ hc hnn] at h
    simp only [Option.some.injEq] at h
    subst h
    refine ⟨?_, ?_, by simp⟩
    · have hx := instr_x_le w
      by_cases hp : ch.profile.op_fx55_store_i <;> simp [hp] <;> omega
    · intro a ha
      simp only [Instr.x_new] at ha
      simp only []
      exact storeRegs_outside _ _ _ _ _ ha
  · intro hnn
    have h := hsome
    rw [cycle_def, hw, execInstr_Fx65 _ _ hc hnn] at h
    simp only [Option.some.injEq] at h
    subst h
    refine ⟨?_, ?_, by simp⟩
    · have hx := instr_x_le w
      by_cases hp : ch.profile.op_fx65_store_i <;> simp [hp] <;> omega
    · intro j hj
      simp only [Instr.x_new] at hj
      simp only []
      exact loadRegs_above _ _ _ _ _ hj

/-- C7 witness: `0xF255` from `chipC7` (original profile, I = 0x300)
advances I to 0x303. -/
theorem fx55_fx65_effects_witness :
    ((cycle chipC7).map fun c => c.regs.i) = some 0x303 := by
  cases hcy : cycle chipC7 with
  | none => exact absurd (congrArg Option.isSome hcy) (by decide)
  | some c =>
    have h := (fx55_fx65_effects chipC7 c 0xF255 (by decide) (by decide)
        (by decide) hcy).1 (by decide)
    rw [Option.map_some', h.1]
    decide

/-- C8: executing `Fx0A` when at least one key is pressed loads the
lowest-indexed pressed key into Vx and leaves the PC advanced by 2; with
no key pressed the whole state is unchanged (the PC rewind cancels the
advance), so the same instruction re-executes on the next cycle. -/
theorem fx0a_wait_for_key (ch ch' : Chip) (w : Nat)
    (hw : read_u16 ch.mem ch.regs.pc = w)
    (hc : (w &&& 0xf000) >>> 12 = 0xF) (hnn : w &&& 0x00ff = 0x0A)
    (hpc : ch.regs.pc + 2 < 65536)
    (hsome : cycle ch = some ch') :
    (∀ k, keyPosition ch.keys = some k →
      ch.keys k = true ∧ (∀ j, j < k → ch.keys j = false) ∧
      ch'.regs.vx = upd ch.regs.vx (Instr.new w).x k ∧
      ch'.regs.pc = ch.regs.pc + 2) ∧
    (keyPosition ch.keys = none →
      (∀ j, j < 16 → ch.keys j = false) ∧ ch' = ch) := by
  constructor
  · intro k hk
    obtain ⟨hk1, _, hk3⟩ := keyPosition_some ch.keys k hk
    have h := hsome
    rw [cycle_def, hw, execInstr_Fx0A _ _ hc hnn] at h
    simp only [hk, Option.some.injEq] at h
    subst h
    refine ⟨hk1, fun j hj => hk3 j hj, by simp, ?_⟩
    simp only []
    omega
  · intro hk
    have h := hsome
    rw [cycle_def, hw, execInstr_Fx0A _ _ hc hnn] at h
    simp only [hk, Option.some.injEq] at h
    subst h
    refine ⟨keyPosition_none ch.keys hk, ?_⟩
    cases ch with
    | mk mem sa regs stack keys frame rs ri prof =>
      cases regs with
      | mk vx dt st i pc sp =>
        have hpc' : pc + 2 < 65536 := hpc
        simp only [Chip.mk.injEq, RegMap.mk.injEq, and_true, true_and]
        unfold sub16
        omega

/-- C8 witness: `0xF30A` from `chipC8` (key 5 pressed) loads 5 into V3
and advances the PC to 0x202. -/
theorem fx0a_wait_for_key_witness :
    ((cycle chipC8).map fun c => (c.regs.pc, c.regs.vx 3)) =
      some (0x202, 5) := by
  cases hcy : cycle chipC8 with
  | none => exact absurd (congrArg Option.isSome hcy) (by decide)
  | some c =>
    have h := (fx0a_wait_for_key chipC8 c 0xF30A (by decide) (by decide)
        (by decide) (by decide) hcy).1 5 (by decide)
    rw [Option.map_some', h.2.2.1, h.2.2.2]
    decide

/-- C10: `load_rom` writes byte i of the buffer to `start + i` for every
i below `2 * (len / 2)` and changes nothing else; in particular a
trailing odd byte is silently dropped and the cell at `start + len - 1`
keeps its old value.  The hypothesis records that ROM bytes are `u8`. -/
theorem load_rom_bytes (ch : Chip) (rom : List Nat) (start : Nat)
    (hb : ∀ b ∈ rom, b < 256) :
    (∀ k, k < 2 * (rom.length / 2) →
      (load_rom ch rom start).mem (start + k) = rom.getD k 0) ∧
    (∀ a, a < start ∨ start + 2 * (rom.length / 2) ≤ a →
      (load_rom ch rom start).mem a = ch.mem a) ∧
    (rom.length % 2 = 1 →
      (load_rom ch rom start).mem (start + rom.length - 1) =
        ch.mem (start + rom.length - 1)) := by
  have hbD : ∀ idx, idx < rom.length → rom.getD idx 0 < 256 := by
    intro idx hidx
    rw [List.getD_eq_getElem?_getD, List.getElem?_eq_getElem hidx]
    exact hb _ (List.getElem_mem hidx)
  have hlen : ((List.range (rom.length / 2)).map fun k =>
      256 * rom.getD (2 * k) 0 + rom.getD (2 * k + 1) 0).length =
      rom.length / 2 := by
    rw [List.length_map, List.length_range]
  refine ⟨?_, ?_, ?_⟩
  · intro k hk
    unfold load_rom
    simp only []
    have hsplit : k % 2 = 0 ∨ k % 2 = 1 := by omega
    rcases hsplit with hpar | hpar
    · have hq : k = 2 * (k / 2) := by omega
      have hq2 : k / 2 < rom.length / 2 := by omega
      have h1 := (load_block_u16_at _ ch.mem start (k / 2)
        (by rw [hlen]; exact hq2)).1
      rw [range_map_getD _ _ _ hq2] at h1
      have hb0 : rom.getD (2 * (k / 2)) 0 < 256 := hbD _ (by omega)
      have hb1 : rom.getD (2 * (k / 2) + 1) 0 < 256 := hbD _ (by omega)
      rw [hq, h1, hi_byte _ _ hb0 hb1]
    · have hq : k = 2 * (k / 2) + 1 := by omega
      have hq2 : k / 2 < rom.length / 2 := by omega
      have h1 := (load_block_u16_at _ ch.mem start (k / 2)
        (by rw [hlen]; exact hq2)).2
      rw [range_map_getD _ _ _ hq2] at h1
      have hb1 : rom.getD (2 * (k / 2) + 1) 0 < 256 := hbD _ (by omega)
      have ha : start + k = start + 2 * (k / 2) + 1 := by omega
      rw [ha, h1, lo_byte _ _ hb1]
      congr 1
      omega
  · intro a ha
    unfold load_rom
    simp only []
    rw [load_block_u16_outside _ ch.mem start a (by rw [hlen]; omega)]
  · intro hodd
    unfold load_rom
    simp only []
    rw [load_block_u16_outside _ ch.mem start _ (by rw [hlen]; omega)]

/-- C10 witness: loading the odd-length buffer [1, 2, 3] at 0x200 stores
the first two bytes and drops the trailing byte. -/
theorem load_rom_bytes_witness :
    (load_rom chip0 [1, 2, 3] 0x200).mem 0x200 = 1 ∧
    (load_rom chip0 [1, 2, 3] 0x200).mem 0x201 = 2 ∧
    (load_rom chip0 [1, 2, 3] 0x200).mem 0x202 = chip0.mem 0x202 := by
  have h := load_rom_bytes chip0 [1, 2, 3] 0x200 (by decide)
  refine ⟨?_, ?_, ?_⟩
  · have h1 := h.1 0 (by decide)
    simpa using h1
  · have h1 := h.1 1 (by decide)
    simpa using h1
  · have h1 := h.2.2 (by decide)
    simpa using h1

end Chip8
